import Mathlib

/-!
# RaylibModelViewer: a verification development of `src/main.c`

The program is one `main` (an initialisation, a frame loop over raylib calls and a
de-initialisation) and one helper, `DrawAxes`.  The embedding below is state passing:

* C `float` values are elements of a field `K`;
* the camera arithmetic (main.c 96-139, raymath) is exact arithmetic in `K`, which is what
  the statements about the camera are made in; the model rotation angles (main.c 141-153)
  and the vertices of `DrawAxes` are rounded after every `float` operation by `Lib.fl`,
  the rounding of the machine (`roundFloat32` for IEEE 754 binary32, the identity for exact
  arithmetic);
* the `libm` functions `sqrtf`, `sinf`, `cosf` and the raylib queries whose results the
  program only passes on (`IsFileExtension`, `GetMeshBoundingBox`) are parameters, bundled
  in `Lib` with the rounding;
* what the outside world answers (load results, keys, mouse, frame time, dropped files,
  `WindowShouldClose`) is an input record, one per loop iteration;
* every raylib call with an effect is recorded, in order, in a trace of `Call`s;
* indexing element 0 of a `NULL` array is a `Fault` that ends the run.
-/

namespace RaylibModelViewer

/-! ## raylib value types -/

/-- Three floats, raylib `Vector3`. -/
structure Vector3 (K : Type) where
  x : K
  y : K
  z : K
  deriving DecidableEq, Repr

/-- Two floats, raylib `Vector2`. -/
structure Vector2 (K : Type) where
  x : K
  y : K
  deriving DecidableEq, Repr

/-- Camera of raylib (`Camera3D`): position, target, up, field of view, projection. -/
structure Camera (K : Type) where
  position : Vector3 K
  target : Vector3 K
  up : Vector3 K
  fovy : K
  projection : Int
  deriving DecidableEq, Repr

/-- Axis aligned box, raylib `BoundingBox`. -/
structure BoundingBox (K : Type) where
  min : Vector3 K
  max : Vector3 K
  deriving DecidableEq, Repr

/-- Texture handle of raylib (`Texture2D`); `id` is the OpenGL texture id. -/
structure Texture2D where
  id : Nat
  deriving DecidableEq, Repr

/-- Mesh of raylib; the program never looks inside one, `id` names the vertex data. -/
structure Mesh where
  id : Nat
  deriving DecidableEq, Repr

/-- Material of raylib; only `maps[MATERIAL_MAP_DIFFUSE].texture` is read or written by
the program, so that is the one field kept. -/
structure Material where
  diffuseTexture : Texture2D
  deriving DecidableEq, Repr

/-- Model of raylib.  `meshes` and `materials` are the C arrays with their counts; the
`NULL` pointer is the empty list.  `handle` stands for the heap blocks the two pointers
name: it is what `LoadModel` hands out and `UnloadModel` frees, and it does not change
when a material of the model is written. -/
structure Model where
  handle : Nat
  meshes : List Mesh
  materials : List Material
  deriving DecidableEq, Repr

/-- Colours used by the program. -/
inductive Color where
  | RAYWHITE | WHITE | GREEN | DARKGRAY | GRAY
  deriving DecidableEq, Repr

/-- Log levels used by the program. -/
inductive TraceLogLevel where
  | LOG_ERROR
  deriving DecidableEq, Repr

/-- Draw modes of rlgl used by the program. -/
inductive DrawMode where
  | RL_LINES
  deriving DecidableEq, Repr

/-- `CAMERA_PERSPECTIVE` of raylib.h. -/
def CAMERA_PERSPECTIVE : Int := 0

/-! ## Library functions the program only passes through -/

/-- The pure library functions the program depends on: `sqrtf`, `sinf`, `cosf` of libm
(used inside raymath) and the raylib queries `IsFileExtension`, `GetMeshBoundingBox`; and
`fl`, the rounding that the machine applies to the exact result of one `float` operation
(round to nearest for IEEE 754 binary32; the identity in exact arithmetic). -/
structure Lib (K : Type) where
  fl : K → K
  sqrtf : K → K
  sinf : K → K
  cosf : K → K
  IsFileExtension : String → String → Bool
  GetMeshBoundingBox : Mesh → BoundingBox K

/-! ## raymath.h (header-only part of raylib, transcribed) -/

section raymath
variable {K : Type} [Field K] [DecidableEq K]

/-- `Vector3Add` of raymath. -/
def Vector3Add (v1 v2 : Vector3 K) : Vector3 K :=
  ⟨v1.x + v2.x, v1.y + v2.y, v1.z + v2.z⟩

/-- `Vector3Subtract` of raymath. -/
def Vector3Subtract (v1 v2 : Vector3 K) : Vector3 K :=
  ⟨v1.x - v2.x, v1.y - v2.y, v1.z - v2.z⟩

/-- `Vector3Scale` of raymath. -/
def Vector3Scale (v : Vector3 K) (scalar : K) : Vector3 K :=
  ⟨v.x * scalar, v.y * scalar, v.z * scalar⟩

/-- `Vector3CrossProduct` of raymath. -/
def Vector3CrossProduct (v1 v2 : Vector3 K) : Vector3 K :=
  ⟨v1.y * v2.z - v1.z * v2.y, v1.z * v2.x - v1.x * v2.z, v1.x * v2.y - v1.y * v2.x⟩

/-- `Vector3Length` of raymath: `sqrtf(x*x + y*y + z*z)`. -/
def Vector3Length (lib : Lib K) (v : Vector3 K) : K :=
  lib.sqrtf (v.x * v.x + v.y * v.y + v.z * v.z)

/-- `Vector3Distance` of raymath. -/
def Vector3Distance (lib : Lib K) (v1 v2 : Vector3 K) : K :=
  let dx := v2.x - v1.x
  let dy := v2.y - v1.y
  let dz := v2.z - v1.z
  lib.sqrtf (dx * dx + dy * dy + dz * dz)

/-- `Vector3Normalize` of raymath: scales by `1/length`, and returns `v` itself when the
length is zero. -/
def Vector3Normalize (lib : Lib K) (v : Vector3 K) : Vector3 K :=
  let length := lib.sqrtf (v.x * v.x + v.y * v.y + v.z * v.z)
  if length ≠ 0 then
    let ilength := 1 / length
    ⟨v.x * ilength, v.y * ilength, v.z * ilength⟩
  else v

/-- `Vector3RotateByAxisAngle` of raymath (Euler-Rodrigues formula): the axis is
normalised inside (a zero length is replaced by 1), `w = axis * sin(angle/2)`,
`a = cos(angle/2)`, result `v + 2a (w × v) + 2 (w × (w × v))`. -/
def Vector3RotateByAxisAngle (lib : Lib K) (v axis : Vector3 K) (angle : K) : Vector3 K :=
  let length0 := lib.sqrtf (axis.x * axis.x + axis.y * axis.y + axis.z * axis.z)
  let length := if length0 = 0 then 1 else length0
  let ilength := 1 / length
  let ax := axis.x * ilength
  let ay := axis.y * ilength
  let az := axis.z * ilength
  let angle2 := angle / 2
  let a0 := lib.sinf angle2
  let b := ax * a0
  let c := ay * a0
  let d := az * a0
  let a := lib.cosf angle2
  let w : Vector3 K := ⟨b, c, d⟩
  let wv : Vector3 K := ⟨w.y * v.z - w.z * v.y, w.z * v.x - w.x * v.z, w.x * v.y - w.y * v.x⟩
  let wwv : Vector3 K :=
    ⟨w.y * wv.z - w.z * wv.y, w.z * wv.x - w.x * wv.z, w.x * wv.y - w.y * wv.x⟩
  let a2 := a * 2
  let wv2 : Vector3 K := ⟨wv.x * a2, wv.y * a2, wv.z * a2⟩
  let wwv2 : Vector3 K := ⟨wwv.x * 2, wwv.y * 2, wwv.z * 2⟩
  ⟨v.x + wv2.x + wwv2.x, v.y + wv2.y + wwv2.y, v.z + wv2.z + wwv2.z⟩

end raymath

/-! ## Calls with an effect, inputs, program state -/

/-- Keys the program asks about. -/
inductive KeyboardKey where
  | KEY_R | KEY_W | KEY_S | KEY_A | KEY_D | KEY_Q | KEY_E | KEY_Z | KEY_X | KEY_C
  deriving DecidableEq, Repr

/-- One library call with an effect (window, GPU resources, log, drawing), with its
arguments and, for the calls that return something the program keeps, its result.
`WindowShouldClose` is recorded too, with its answer. -/
inductive Call (K : Type) where
  | InitWindow (width height : Int) (title : String)
  | SearchAndSetResourceDir (folderName : String)
  | LoadModel (fileName : String) (result : Model)
  | LoadTexture (fileName : String) (result : Texture2D)
  | TraceLog (logLevel : TraceLogLevel) (text : String)
  | DisableCursor
  | SetTargetFPS (fps : Int)
  | WindowShouldClose (result : Bool)
  | LoadDroppedFiles (result : List String)
  | UnloadDroppedFiles (files : List String)
  | UnloadModel (model : Model)
  | UnloadTexture (texture : Texture2D)
  | BeginDrawing
  | ClearBackground (color : Color)
  | BeginMode3D (camera : Camera K)
  | rlPushMatrix
  | rlTranslatef (x y z : K)
  | rlRotatef (angle x y z : K)
  | DrawModel (model : Model) (position : Vector3 K) (scale : K) (tint : Color)
  | rlPopMatrix
  | DrawGrid (slices : Int) (spacing : K)
  | rlBegin (mode : DrawMode)
  | rlColor3f (r g b : K)
  | rlVertex3f (x y z : K)
  | rlEnd
  | DrawBoundingBox (box : BoundingBox K) (color : Color)
  | EndMode3D
  | DrawText (text : String) (posX posY fontSize : Int) (color : Color)
  | DrawFPS (posX posY : Int)
  | EndDrawing
  | CloseWindow
  deriving DecidableEq, Repr

/-- What the two load calls before the loop return. -/
structure InitInput where
  model : Model
  texture : Texture2D
  deriving DecidableEq, Repr

/-- What the outside world answers during one pass of the `while` loop: the answer of
`WindowShouldClose` at the loop head and, for the body, the key states, the frame time
(`GetFrameTime`, one value per frame), the mouse delta, the drop state, the result of the
load call the body may make, the left button, the outcome of the ray test
`GetRayCollisionBox(GetScreenToWorldRay(GetMousePosition(), camera), bounds).hit` as a
function of the camera and box it is asked about, and the screen size. -/
structure FrameInput (K : Type) where
  windowShouldClose : Bool
  isKeyPressed : KeyboardKey → Bool
  isKeyDown : KeyboardKey → Bool
  frameTime : K
  mouseDelta : Vector2 K
  isFileDropped : Bool
  droppedFiles : List String
  loadModel : Model
  loadTexture : Texture2D
  isLeftButtonPressed : Bool
  rayHitsBox : Camera K → BoundingBox K → Bool
  screenWidth : Int
  screenHeight : Int

/-- The local variables of `main` that live across loop iterations. -/
structure State (K : Type) where
  camera : Camera K
  camDirection : Vector3 K
  camDirectionRight : Vector3 K
  modelRotAngleX : K
  modelRotAngleY : K
  modelRotAngleZ : K
  model : Model
  texture : Texture2D
  bounds : BoundingBox K
  selected : Bool
  deriving DecidableEq, Repr

/-- Undefined behaviour the program can run into: element 0 of a `NULL` array. -/
inductive Fault where
  | nullMeshes
  | nullMaterials
  deriving DecidableEq, Repr

/-- How a run of `main` over a finite list of inputs ends: it returned, it hit a fault,
or the inputs ran out with the program still inside the loop. -/
inductive Exit where
  | returned (code : Int)
  | fault (f : Fault)
  | inLoop
  deriving DecidableEq, Repr

/-- A run of `main`: the calls made, in order; the program state at each point where a
frame was drawn (at `BeginDrawing`), in order; and how the run ended. -/
structure Run (K : Type) where
  trace : List (Call K)
  drawn : List (State K)
  exit : Exit

/-! ## The program: `DrawAxes` -/

section program
variable {K : Type} [Field K] [DecidableEq K]

/-- `DrawAxes(scale)` (main.c 244-282): the return value and the rlgl calls it makes.
`scale / 10` and each `s - punta` are `float` operations, rounded by `lib.fl`; the negation
`-punta` is exact in floating point. -/
def DrawAxes (lib : Lib K) (scale : K) : Int × List (Call K) :=
  let punta := lib.fl (scale / 10)
  let s := scale
  (0,
   [ .rlBegin .RL_LINES,
     -- eje X
     .rlColor3f 1 0 0,
     .rlVertex3f 0 0 0,
     .rlVertex3f s 0 0,
     .rlVertex3f s 0 0,
     .rlVertex3f (lib.fl (s - punta)) 0 punta,
     .rlVertex3f s 0 0,
     .rlVertex3f (lib.fl (s - punta)) 0 (-punta),
     -- eje Y
     .rlColor3f 0 1 0,
     .rlVertex3f 0 0 0,
     .rlVertex3f 0 s 0,
     .rlVertex3f 0 s 0,
     .rlVertex3f 0 (lib.fl (s - punta)) punta,
     .rlVertex3f 0 s 0,
     .rlVertex3f 0 (lib.fl (s - punta)) (-punta),
     -- eje Z
     .rlColor3f 0 0 1,
     .rlVertex3f 0 0 0,
     .rlVertex3f 0 0 s,
     .rlVertex3f 0 0 s,
     .rlVertex3f punta 0 (lib.fl (s - punta)),
     .rlVertex3f 0 0 s,
     .rlVertex3f (-punta) 0 (lib.fl (s - punta)),
     .rlEnd ])

/-! ## The program: `main` -/

/-- `screenWidth` (main.c 44). -/
def screenWidth : Int := 800

/-- `screenHeight` (main.c 45). -/
def screenHeight : Int := 450

/-- `camSpeed` (main.c 61); never assigned again. -/
def camSpeed : K := 15

/-- `position`, the model position (main.c 77); never assigned again. -/
def position : Vector3 K := ⟨0, 0, 0⟩

/-- The position the camera starts at and is put back to by `R` (main.c 51 and 101). -/
def cameraHome : Vector3 K := ⟨0, 10, 10⟩

/-- The camera as set up in main.c 50-55. -/
def initialCamera : Camera K :=
  { position := cameraHome
    target := ⟨0, 0, 0⟩
    up := ⟨0, 1, 0⟩
    fovy := 45
    projection := CAMERA_PERSPECTIVE }

/-- `model.materials[0].maps[MATERIAL_MAP_DIFFUSE].texture = texture` (main.c 69, 171,
182): a fault when the material array is `NULL`. -/
def setDiffuseTexture (model : Model) (texture : Texture2D) : Except Fault Model :=
  match model.materials with
  | [] => .error .nullMaterials
  | m :: ms => .ok { model with materials := { m with diffuseTexture := texture } :: ms }

/-- `GetMeshBoundingBox(model.meshes[0])` (main.c 79, 173): a fault when the mesh array
is `NULL`. -/
def meshBounds (lib : Lib K) (model : Model) : Except Fault (BoundingBox K) :=
  match model.meshes with
  | [] => .error .nullMeshes
  | mesh :: _ => .ok (lib.GetMeshBoundingBox mesh)

/-- The statement of main.c 96: `camDirectionRight` is recomputed from `camDirection`. -/
def updateRight (lib : Lib K) (st : State K) : State K :=
  { st with
    camDirectionRight := Vector3Normalize lib (Vector3CrossProduct st.camDirection st.camera.up) }

/-- The `R` key (main.c 99-103): the camera is put home and `camDirection` re-aimed from
there at the target of the frame before. -/
def onKeyR (lib : Lib K) (st : State K) (f : FrameInput K) : State K :=
  if f.isKeyPressed .KEY_R then
    let camera := { st.camera with position := cameraHome }
    { st with
      camera := camera
      camDirection := Vector3Normalize lib (Vector3Subtract camera.target camera.position) }
  else st

/-- The `W` key (main.c 105-108). -/
def onKeyW (st : State K) (f : FrameInput K) : State K :=
  if f.isKeyDown .KEY_W then
    let moved := Vector3Add st.camera.position (Vector3Scale st.camDirection (camSpeed * f.frameTime))
    { st with camera := { st.camera with position := moved } }
  else st

/-- The `S` key (main.c 109-112). -/
def onKeyS (st : State K) (f : FrameInput K) : State K :=
  if f.isKeyDown .KEY_S then
    let moved := Vector3Add st.camera.position (Vector3Scale st.camDirection (-camSpeed * f.frameTime))
    { st with camera := { st.camera with position := moved } }
  else st

/-- The `A` key (main.c 113-116). -/
def onKeyA (st : State K) (f : FrameInput K) : State K :=
  if f.isKeyDown .KEY_A then
    let moved :=
      Vector3Add st.camera.position (Vector3Scale st.camDirectionRight (-camSpeed * f.frameTime))
    { st with camera := { st.camera with position := moved } }
  else st

/-- The `D` key (main.c 117-120). -/
def onKeyD (st : State K) (f : FrameInput K) : State K :=
  if f.isKeyDown .KEY_D then
    let moved :=
      Vector3Add st.camera.position (Vector3Scale st.camDirectionRight (camSpeed * f.frameTime))
    { st with camera := { st.camera with position := moved } }
  else st

/-- The `Q` key (main.c 121-124). -/
def onKeyQ (st : State K) (f : FrameInput K) : State K :=
  if f.isKeyDown .KEY_Q then
    let moved := { st.camera.position with y := st.camera.position.y + camSpeed * f.frameTime }
    { st with camera := { st.camera with position := moved } }
  else st

/-- The `E` key (main.c 125-128). -/
def onKeyE (st : State K) (f : FrameInput K) : State K :=
  if f.isKeyDown .KEY_E then
    let moved := { st.camera.position with y := st.camera.position.y - camSpeed * f.frameTime }
    { st with camera := { st.camera with position := moved } }
  else st

/-- Key handling of one frame (main.c 96-128), the statements above in program order. -/
def handleKeys (lib : Lib K) (st : State K) (f : FrameInput K) : State K :=
  let st := updateRight lib st
  let st := onKeyR lib st f
  let st := onKeyW st f
  let st := onKeyS st f
  let st := onKeyA st f
  let st := onKeyD st f
  let st := onKeyQ st f
  let st := onKeyE st f
  st

/-- Mouse look of one frame (main.c 130-139): pitch about `camDirectionRight`, yaw about
`camera.up`, then the target is put one `camDirection` in front of the position.  The
constant `0.1` is the exact tenth. -/
def handleMouse (lib : Lib K) (st : State K) (f : FrameInput K) : State K :=
  let mouseDelta := f.mouseDelta
  let pitch := -mouseDelta.y * (1 / 10) * f.frameTime
  let camDirection := Vector3RotateByAxisAngle lib st.camDirection st.camDirectionRight pitch
  let yaw := -mouseDelta.x * (1 / 10) * f.frameTime
  let camDirection := Vector3RotateByAxisAngle lib camDirection st.camera.up yaw
  { st with
    camDirection := camDirection
    camera := { st.camera with target := Vector3Add st.camera.position camDirection } }

/-- The `Z` key (main.c 142-145): `modelRotAngleX += 90 * GetFrameTime()`, a `float`
product and a `float` sum, each rounded by `lib.fl`. -/
def onKeyZ (lib : Lib K) (st : State K) (f : FrameInput K) : State K :=
  if f.isKeyDown .KEY_Z then
    { st with modelRotAngleX := lib.fl (st.modelRotAngleX + lib.fl (90 * f.frameTime)) }
  else st

/-- The `X` key (main.c 146-149): `modelRotAngleY += 90 * GetFrameTime()`, rounded
likewise. -/
def onKeyX (lib : Lib K) (st : State K) (f : FrameInput K) : State K :=
  if f.isKeyDown .KEY_X then
    { st with modelRotAngleY := lib.fl (st.modelRotAngleY + lib.fl (90 * f.frameTime)) }
  else st

/-- The `C` key (main.c 150-153): `modelRotAngleZ += 90 * GetFrameTime()`, rounded
likewise. -/
def onKeyC (lib : Lib K) (st : State K) (f : FrameInput K) : State K :=
  if f.isKeyDown .KEY_C then
    { st with modelRotAngleZ := lib.fl (st.modelRotAngleZ + lib.fl (90 * f.frameTime)) }
  else st

/-- Model rotation of one frame (main.c 141-153). -/
def rotateModel (lib : Lib K) (st : State K) (f : FrameInput K) : State K :=
  let st := onKeyZ lib st f
  let st := onKeyX lib st f
  let st := onKeyC lib st f
  st

/-- The condition of main.c 162-167: one of the six model file extensions. -/
def isModelFile (lib : Lib K) (path : String) : Bool :=
  lib.IsFileExtension path ".obj" ||
  lib.IsFileExtension path ".gltf" ||
  lib.IsFileExtension path ".glb" ||
  lib.IsFileExtension path ".vox" ||
  lib.IsFileExtension path ".iqm" ||
  lib.IsFileExtension path ".m3d"

/-- The body of `if (droppedFiles.count == 1)` (main.c 162-183) for the one dropped path:
the calls made and the new state, or the fault the body ran into. -/
def replaceFromFile (lib : Lib K) (st : State K) (f : FrameInput K) (path : String) :
    List (Call K) × Except Fault (State K) :=
  if isModelFile lib path then
    let calls := [Call.UnloadModel st.model, Call.LoadModel path f.loadModel]
    match setDiffuseTexture f.loadModel st.texture with
    | .error e => (calls, .error e)
    | .ok model =>
      match meshBounds lib model with
      | .error e => (calls, .error e)
      | .ok bounds => (calls, .ok { st with model := model, bounds := bounds })
  else if lib.IsFileExtension path ".png" then
    let calls := [Call.UnloadTexture st.texture, Call.LoadTexture path f.loadTexture]
    let texture := f.loadTexture
    match setDiffuseTexture st.model texture with
    | .error e => (calls, .error e)
    | .ok model => (calls, .ok { st with texture := texture, model := model })
  else ([], .ok st)

/-- Drag and drop of one frame (main.c 155-187). -/
def handleDrop (lib : Lib K) (st : State K) (f : FrameInput K) :
    List (Call K) × Except Fault (State K) :=
  if f.isFileDropped then
    let droppedFiles := f.droppedFiles
    let inner : List (Call K) × Except Fault (State K) :=
      match droppedFiles with
      | [path] => replaceFromFile lib st f path
      | _ => ([], .ok st)
    match inner with
    | (calls, .error e) => (Call.LoadDroppedFiles droppedFiles :: calls, .error e)
    | (calls, .ok st) =>
      (Call.LoadDroppedFiles droppedFiles :: calls ++ [Call.UnloadDroppedFiles droppedFiles],
        .ok st)
  else ([], .ok st)

/-- Selection by mouse click of one frame (main.c 189-195). -/
def handleClick (st : State K) (f : FrameInput K) : State K :=
  if f.isLeftButtonPressed then
    if f.rayHitsBox st.camera st.bounds then { st with selected := !st.selected }
    else { st with selected := false }
  else st

/-- The update half of the loop body (main.c 94-196). -/
def frameUpdate (lib : Lib K) (st : State K) (f : FrameInput K) :
    List (Call K) × Except Fault (State K) :=
  let st := handleKeys lib st f
  let st := handleMouse lib st f
  let st := rotateModel lib st f
  match handleDrop lib st f with
  | (calls, .error e) => (calls, .error e)
  | (calls, .ok st) => (calls, .ok (handleClick st f))

/-- The draw half of the loop body (main.c 198-229). -/
def frameDraw (lib : Lib K) (st : State K) (f : FrameInput K) : List (Call K) :=
  [ .BeginDrawing,
    .ClearBackground .RAYWHITE,
    .BeginMode3D st.camera,
    .rlPushMatrix,
    .rlTranslatef (position (K := K)).x (position (K := K)).y (position (K := K)).z,
    .rlRotatef st.modelRotAngleX 1 0 0,
    .rlRotatef st.modelRotAngleY 0 1 0,
    .rlRotatef st.modelRotAngleZ 0 0 1,
    .DrawModel st.model ⟨0, 0, 0⟩ 1 .WHITE,
    .rlPopMatrix,
    .DrawGrid 50 1 ]
  ++ (DrawAxes lib (20 : K)).2
  ++ (if st.selected then [Call.DrawBoundingBox st.bounds .GREEN] else [])
  ++ [ .EndMode3D,
       .DrawText "Drag & drop model to load mesh/texture." 10 (f.screenHeight - 20) 10 .DARKGRAY ]
  ++ (if st.selected then [Call.DrawText "MODEL SELECTED" (f.screenWidth - 110) 10 10 .GREEN]
      else [])
  ++ [ .DrawText "(c) Castle 3D model by Alberto Cano" (screenWidth - 200) (screenHeight - 20)
         10 .GRAY,
       .DrawFPS 10 10,
       .EndDrawing ]

/-- The de-initialisation after the loop (main.c 233-241). -/
def deinit (st : State K) : List (Call K) :=
  [ .UnloadTexture st.texture, .UnloadModel st.model, .CloseWindow ]

/-- The `while (!WindowShouldClose())` loop (main.c 92-231) over the inputs of the passes
that were observed, followed by the de-initialisation and `return 0`. -/
def mainLoop (lib : Lib K) : State K → List (FrameInput K) → Run K
  | _, [] => ⟨[], [], .inLoop⟩
  | st, f :: fs =>
    if f.windowShouldClose then
      ⟨Call.WindowShouldClose true :: deinit st, [], .returned 0⟩
    else
      match frameUpdate lib st f with
      | (calls, .error e) => ⟨Call.WindowShouldClose false :: calls, [], .fault e⟩
      | (calls, .ok st') =>
        let rest := mainLoop lib st' fs
        ⟨Call.WindowShouldClose false :: calls ++ frameDraw lib st' f ++ rest.trace,
          st' :: rest.drawn, rest.exit⟩

/-- The calls of the initialisation up to and including the two loads (main.c 47-68). -/
def initCalls (init : InitInput) : List (Call K) :=
  [ .InitWindow screenWidth screenHeight "raylib [models] example - models loading",
    .SearchAndSetResourceDir "resources",
    .LoadModel "monedita.glb" init.model,
    .LoadTexture "wabbit-alpha.png" init.texture ]

/-- The state with which the loop is entered (main.c 50-84), for the model as it is after
line 69 and its bounds. -/
def initialState (lib : Lib K) (model : Model) (texture : Texture2D) (bounds : BoundingBox K) :
    State K :=
  let camera : Camera K := initialCamera
  let camDirection := Vector3Normalize lib (Vector3Subtract camera.target camera.position)
  let camDirectionRight := Vector3Normalize lib (Vector3CrossProduct camDirection camera.up)
  { camera := camera
    camDirection := camDirection
    camDirectionRight := camDirectionRight
    modelRotAngleX := 0
    modelRotAngleY := 0
    modelRotAngleZ := 0
    model := model
    texture := texture
    bounds := bounds
    selected := false }

/-- The whole of `main` (main.c 40-242). -/
def main (lib : Lib K) (init : InitInput) (frames : List (FrameInput K)) : Run K :=
  match setDiffuseTexture init.model init.texture with
  | .error e => ⟨initCalls init, [], .fault e⟩
  | .ok model =>
    if model.meshes = [] then
      ⟨initCalls init ++ [Call.TraceLog .LOG_ERROR "No se cargo el modelo"], [], .returned 0⟩
    else
      match meshBounds lib model with
      | .error e => ⟨initCalls init, [], .fault e⟩
      | .ok bounds =>
        let rest := mainLoop lib (initialState lib model init.texture bounds) frames
        ⟨initCalls init ++ [Call.DisableCursor, Call.SetTargetFPS 60] ++ rest.trace,
          rest.drawn, rest.exit⟩

end program

/-! ## Vocabulary of the specification -/

section vocabulary
variable {K : Type}

/-- A line segment as rlgl draws it in `RL_LINES` mode: its colour and its two ends. -/
structure Segment (K : Type) where
  r : K
  g : K
  b : K
  start : Vector3 K
  stop : Vector3 K
  deriving DecidableEq, Repr

/-- How rlgl reads a batch in `RL_LINES` mode: `rlColor3f` sets the current colour, and
every second `rlVertex3f` closes a segment that starts at the vertex before it, in the
current colour.  Arguments: the current colour, the pending first vertex, the calls. -/
def linesOf : K × K × K → Option (Vector3 K) → List (Call K) → List (Segment K)
  | _, _, [] => []
  | _, pending, .rlColor3f r g b :: rest => linesOf (r, g, b) pending rest
  | c, none, .rlVertex3f x y z :: rest => linesOf c (some ⟨x, y, z⟩) rest
  | c, some p, .rlVertex3f x y z :: rest =>
    ⟨c.1, c.2.1, c.2.2, p, ⟨x, y, z⟩⟩ :: linesOf c none rest
  | c, pending, _ :: rest => linesOf c pending rest

/-- Whether a call is an `rlVertex3f`. -/
def Call.isVertex : Call K → Bool
  | .rlVertex3f _ _ _ => true
  | _ => false

/-- Whether a call is an `rlBegin`. -/
def Call.isBegin : Call K → Bool
  | .rlBegin _ => true
  | _ => false

/-- Whether a call is an `rlEnd`. -/
def Call.isEnd : Call K → Bool
  | .rlEnd => true
  | _ => false

/-- Mirror image of a point across the x axis. -/
def mirrorAcrossX [Neg K] (v : Vector3 K) : Vector3 K := ⟨v.x, -v.y, -v.z⟩

/-- Mirror image of a point across the y axis. -/
def mirrorAcrossY [Neg K] (v : Vector3 K) : Vector3 K := ⟨-v.x, v.y, -v.z⟩

/-- Mirror image of a point across the z axis. -/
def mirrorAcrossZ [Neg K] (v : Vector3 K) : Vector3 K := ⟨-v.x, -v.y, v.z⟩

/-- A key state as a number: 1 when down, 0 when up. -/
def ind [Zero K] [One K] (b : Bool) : K := if b then 1 else 0

/-- The state with the camera moved to `p`. -/
def withPosition (st : State K) (p : Vector3 K) : State K :=
  { st with camera := { st.camera with position := p } }

/-- The frame input `f` with the keys `Q` and `E` set to `q` and `e`. -/
def withKeysQE (f : FrameInput K) (q e : Bool) : FrameInput K :=
  { f with isKeyDown := fun k =>
      if k = KeyboardKey.KEY_Q then q else if k = KeyboardKey.KEY_E then e else f.isKeyDown k }

/-- The part of the state that drag and drop leaves alone. -/
def SameView (st st' : State K) : Prop :=
  st'.camera = st.camera ∧ st'.camDirection = st.camDirection ∧
  st'.camDirectionRight = st.camDirectionRight ∧
  st'.modelRotAngleX = st.modelRotAngleX ∧ st'.modelRotAngleY = st.modelRotAngleY ∧
  st'.modelRotAngleZ = st.modelRotAngleZ ∧ st'.selected = st.selected

/-- The part of the state that only drag and drop changes. -/
def SameAssets (st st' : State K) : Prop :=
  st'.model = st.model ∧ st'.texture = st.texture ∧ st'.bounds = st.bounds

/-- The diffuse texture of material 0 of the model is the current `texture`, and `bounds`
is `GetMeshBoundingBox` of mesh 0 of the model. -/
def Consistent (lib : Lib K) (st : State K) : Prop :=
  st.model.materials.head?.map (fun m => m.diffuseTexture) = some st.texture ∧
  st.model.meshes.head?.map lib.GetMeshBoundingBox = some st.bounds

/-- Exact arithmetic for libm: `sqrtf` is the non-negative square root on non-negative
numbers, and `sinf`, `cosf` satisfy the Pythagorean identity.  The real `√`, `sin`, `cos`
are the instance meant. -/
def ExactMath [LinearOrderedField K] (lib : Lib K) : Prop :=
  (∀ x : K, 0 ≤ x → lib.sqrtf x * lib.sqrtf x = x) ∧
  (∀ x : K, 0 ≤ lib.sqrtf x) ∧
  (∀ x : K, lib.sinf x * lib.sinf x + lib.cosf x * lib.cosf x = 1)

/-- The state before drag and drop in a frame. -/
def beforeDrop {K : Type} [Field K] [DecidableEq K] (lib : Lib K) (st : State K)
    (f : FrameInput K) : State K :=
  rotateModel lib (handleMouse lib (handleKeys lib st f) f) f

/-- The extensions main.c 162-177 tests, in order. -/
def supportedExtensions : List String :=
  [".obj", ".gltf", ".glb", ".vox", ".iqm", ".m3d", ".png"]

/-- One `angle += 90 * GetFrameTime()` under its key: `fl (a + fl (90 * dt))` when the key
is down, `a` when it is up. -/
def turnedBy [Field K] (lib : Lib K) (a : K) (down : Bool) (dt : K) : K :=
  if down then lib.fl (a + lib.fl (90 * dt)) else a

/-- The squared length `x*x + y*y + z*z` that raymath takes the root of. -/
def normSq [Field K] (v : Vector3 K) : K := v.x * v.x + v.y * v.y + v.z * v.z

/-- The Euler-Rodrigues step of `Vector3RotateByAxisAngle` once `w` and `a` are known:
`v + 2a (w × v) + 2 (w × (w × v))`. -/
def rodrigues [Field K] (v w : Vector3 K) (a : K) : Vector3 K :=
  let wv : Vector3 K := ⟨w.y * v.z - w.z * v.y, w.z * v.x - w.x * v.z, w.x * v.y - w.y * v.x⟩
  let wwv : Vector3 K :=
    ⟨w.y * wv.z - w.z * wv.y, w.z * wv.x - w.x * wv.z, w.x * wv.y - w.y * wv.x⟩
  ⟨v.x + wv.x * (a * 2) + wwv.x * 2, v.y + wv.y * (a * 2) + wwv.y * 2,
    v.z + wv.z * (a * 2) + wwv.z * 2⟩

/-- The model handles and texture ids that are loaded and not yet unloaded after `calls`,
starting from `models` and `textures`.  The answer is `none` when a call unloads a handle
that is not loaded at that point, or draws a model that is not loaded or whose material 0
carries a texture that is not loaded. -/
def liveAfter :
    List (Call K) → List Nat → List Nat → Option (List Nat × List Nat)
  | [], models, textures => some (models, textures)
  | .LoadModel _ m :: rest, models, textures => liveAfter rest (m.handle :: models) textures
  | .LoadTexture _ t :: rest, models, textures => liveAfter rest models (t.id :: textures)
  | .UnloadModel m :: rest, models, textures =>
    if m.handle ∈ models then liveAfter rest (models.erase m.handle) textures else none
  | .UnloadTexture t :: rest, models, textures =>
    if t.id ∈ textures then liveAfter rest models (textures.erase t.id) else none
  | .DrawModel m _ _ _ :: rest, models, textures =>
    if m.handle ∈ models ∧ ∀ mat ∈ m.materials.head?, mat.diffuseTexture.id ∈ textures then
      liveAfter rest models textures
    else none
  | _ :: rest, models, textures => liveAfter rest models textures

end vocabulary

/-! ## IEEE 754 binary32 rounding -/

/-- The integer nearest to `q`, the even one of the two when `q` is half way. -/
def roundHalfEven (q : ℚ) : ℤ :=
  if q - ⌊q⌋ < 1 / 2 then ⌊q⌋
  else if 1 / 2 < q - ⌊q⌋ then ⌊q⌋ + 1
  else if ⌊q⌋ % 2 = 0 then ⌊q⌋
  else ⌊q⌋ + 1

/-- The exponent `e` of the spacing `2^e` of the binary32 numbers around `x`: 24 significant
bits, so `k - 23` for `2^k ≤ |x| < 2^(k+1)`, and never below the spacing `2^-149` of the
subnormal numbers. -/
def float32Exponent (x : ℚ) : ℤ := max (Int.log 2 |x| - 23) (-149)

/-- The binary32 number nearest to `x`, ties to even: the rounding of one `float`
operation with exact result `x`.  Results beyond the largest finite binary32 number, which
the machine turns into an infinity, are outside this model. -/
def roundFloat32 (x : ℚ) : ℚ :=
  roundHalfEven (x / 2 ^ float32Exponent x) * 2 ^ float32Exponent x

/-! ## Concrete inputs, for runs of the program -/

/-- A library of exact arithmetic over any field, from the three libm functions: nothing
is rounded, `IsFileExtension` compares the end of the file name, `GetMeshBoundingBox` answers
a cube that depends on the mesh. -/
def libOver {K : Type} [Field K] (sqrtf sinf cosf : K → K) : Lib K :=
  { fl := fun x => x
    sqrtf := sqrtf
    sinf := sinf
    cosf := cosf
    IsFileExtension := fun fileName ext => ext.toList.isSuffixOf fileName.toList
    GetMeshBoundingBox := fun mesh => ⟨⟨0, 0, 0⟩, ⟨mesh.id, mesh.id, mesh.id⟩⟩ }

/-- A library over the rationals; the stand-ins for libm are enough where no claim about
lengths or angles is at stake. -/
def ratLib : Lib ℚ := libOver (fun x => x) (fun _ => 0) (fun _ => 1)

/-- A library over the rationals with binary32 rounding; libm is replaced by stand-ins as
in `ratLib`. -/
def float32Lib : Lib ℚ :=
  { ratLib with fl := roundFloat32 }

/-- A frame in which nothing happens: no key, no mouse movement, no drop, no click, zero
frame time. -/
def idleFrame {K : Type} [Field K] : FrameInput K :=
  { windowShouldClose := false
    isKeyPressed := fun _ => false
    isKeyDown := fun _ => false
    frameTime := 0
    mouseDelta := ⟨0, 0⟩
    isFileDropped := false
    droppedFiles := []
    loadModel := ⟨0, [], []⟩
    loadTexture := ⟨0⟩
    isLeftButtonPressed := false
    rayHitsBox := fun _ _ => false
    screenWidth := 800
    screenHeight := 450 }

/-- The frame in which the window is closed. -/
def closeFrame {K : Type} [Field K] : FrameInput K :=
  { (idleFrame : FrameInput K) with windowShouldClose := true }

/-- A frame of one fifteenth of a second in which only `S` is held. -/
def backFrame {K : Type} [Field K] : FrameInput K :=
  { (idleFrame : FrameInput K) with
    isKeyDown := fun k => decide (k = KeyboardKey.KEY_S)
    frameTime := 1 / 15 }

/-- A frame in which only `R` is pressed. -/
def resetFrame {K : Type} [Field K] : FrameInput K :=
  { (idleFrame : FrameInput K) with isKeyPressed := fun k => decide (k = KeyboardKey.KEY_R) }

/-- Initial loads that succeed: a model with one mesh and the default material, and a
texture. -/
def goodLoad : InitInput :=
  { model := ⟨1, [⟨3⟩], [⟨⟨0⟩⟩]⟩, texture := ⟨7⟩ }

/-- Initial loads of which the model load fails: no meshes, the default material only. -/
def failedLoad : InitInput :=
  { model := ⟨1, [], [⟨⟨0⟩⟩]⟩, texture := ⟨7⟩ }

/-- A frame in which the one file `broken.obj` is dropped and `LoadModel` fails on it:
the model it returns has no meshes, only the default material. -/
def brokenModelDrop {K : Type} [Field K] : FrameInput K :=
  { (idleFrame : FrameInput K) with
    isFileDropped := true
    droppedFiles := ["broken.obj"]
    loadModel := ⟨2, [], [⟨⟨0⟩⟩]⟩ }

/-- The state with which `main` enters the loop after `goodLoad`. -/
def entryState {K : Type} [Field K] [DecidableEq K] (lib : Lib K) : State K :=
  initialState lib ⟨1, [⟨3⟩], [⟨⟨7⟩⟩]⟩ ⟨7⟩ (lib.GetMeshBoundingBox ⟨3⟩)

/-- A frame with a left click whose ray hits the box. -/
def hitClick {K : Type} [Field K] : FrameInput K :=
  { (idleFrame : FrameInput K) with isLeftButtonPressed := true, rayHitsBox := fun _ _ => true }

/-- A frame with a left click whose ray misses the box. -/
def missClick {K : Type} [Field K] : FrameInput K :=
  { (idleFrame : FrameInput K) with isLeftButtonPressed := true }

/-- A frame in which the one file `notes.txt` is dropped. -/
def textDrop {K : Type} [Field K] : FrameInput K :=
  { (idleFrame : FrameInput K) with isFileDropped := true, droppedFiles := ["notes.txt"] }

/-- A frame in which the one file `skin.png` is dropped and loads as texture 9. -/
def pngDrop {K : Type} [Field K] : FrameInput K :=
  { (idleFrame : FrameInput K) with
    isFileDropped := true
    droppedFiles := ["skin.png"]
    loadTexture := ⟨9⟩ }

/-- A frame in which the one file `castle.obj` is dropped and loads as a model with one
mesh and the default material. -/
def modelDrop {K : Type} [Field K] : FrameInput K :=
  { (idleFrame : FrameInput K) with
    isFileDropped := true
    droppedFiles := ["castle.obj"]
    loadModel := ⟨2, [⟨5⟩], [⟨⟨0⟩⟩]⟩ }

/-- A frame of one sixtieth of a second in which `W` and `S` are both held. -/
def pushPullFrame {K : Type} [Field K] : FrameInput K :=
  { (idleFrame : FrameInput K) with
    isKeyDown := fun k => decide (k = KeyboardKey.KEY_W ∨ k = KeyboardKey.KEY_S)
    frameTime := 1 / 60 }

theorem setDiffuseTexture_ok (model model' : Model) (texture : Texture2D)
    (h : setDiffuseTexture model texture = .ok model') :
    model'.handle = model.handle ∧ model'.meshes = model.meshes ∧
    model'.materials.head?.map (fun m => m.diffuseTexture) = some texture ∧
    model.materials ≠ [] := by
  unfold setDiffuseTexture at h
  cases hm : model.materials with
  | nil => simp [hm] at h
  | cons m ms =>
    simp only [hm, Except.ok.injEq] at h
    subst h
    simp

theorem setDiffuseTexture_of_ne_nil (model : Model) (texture : Texture2D)
    (h : model.materials ≠ []) : ∃ model', setDiffuseTexture model texture = .ok model' := by
  unfold setDiffuseTexture
  cases hm : model.materials with
  | nil => exact absurd hm h
  | cons m ms => exact ⟨_, rfl⟩

theorem meshBounds_ok {K : Type} (lib : Lib K) (model : Model) (bounds : BoundingBox K)
    (h : meshBounds lib model = .ok bounds) :
    model.meshes.head?.map lib.GetMeshBoundingBox = some bounds := by
  unfold meshBounds at h
  cases hm : model.meshes with
  | nil => simp [hm] at h
  | cons m ms =>
    simp only [hm, Except.ok.injEq] at h
    subst h
    simp

theorem meshBounds_of_ne_nil {K : Type} (lib : Lib K) (model : Model)
    (h : model.meshes ≠ []) : ∃ bounds, meshBounds lib model = .ok bounds := by
  unfold meshBounds
  cases hm : model.meshes with
  | nil => exact absurd hm h
  | cons m ms => exact ⟨_, rfl⟩

theorem replaceFromFile_sameView {K : Type} (lib : Lib K)
    (st : State K) (f : FrameInput K) (path : String) (calls : List (Call K)) (st' : State K)
    (h : replaceFromFile lib st f path = (calls, .ok st')) : SameView st st' := by
  unfold replaceFromFile at h
  split_ifs at h with h1 h2
  · rcases hs : setDiffuseTexture f.loadModel st.texture with e | model
    · simp [hs] at h
    · rcases hb : meshBounds lib model with e | bounds
      · simp [hs, hb] at h
      · simp only [hs, hb, Prod.mk.injEq, Except.ok.injEq] at h
        obtain ⟨-, rfl⟩ := h
        simp [SameView]
  · rcases hs : setDiffuseTexture st.model f.loadTexture with e | model
    · simp [hs] at h
    · simp only [hs, Prod.mk.injEq, Except.ok.injEq] at h
      obtain ⟨-, rfl⟩ := h
      simp [SameView]
  · simp only [Prod.mk.injEq, Except.ok.injEq] at h
    obtain ⟨-, rfl⟩ := h
    simp [SameView]

/-- What a dropped model file does, when the body completes. -/
theorem replaceFromFile_model {K : Type} (lib : Lib K) (st : State K) (f : FrameInput K)
    (path : String) (calls : List (Call K)) (st' : State K)
    (hmodel : isModelFile lib path = true)
    (h : replaceFromFile lib st f path = (calls, .ok st')) :
    st'.texture = st.texture ∧
    st'.model.materials.head?.map (fun m => m.diffuseTexture) = some st.texture ∧
    st'.model.handle = f.loadModel.handle ∧
    st'.model.meshes = f.loadModel.meshes ∧
    st'.model.meshes.head?.map lib.GetMeshBoundingBox = some st'.bounds := by
  unfold replaceFromFile at h
  rw [if_pos hmodel] at h
  rcases hs : setDiffuseTexture f.loadModel st.texture with e | model
  · simp [hs] at h
  · rcases hb : meshBounds lib model with e | bounds
    · simp [hs, hb] at h
    · simp only [hs, hb, Prod.mk.injEq, Except.ok.injEq] at h
      obtain ⟨-, rfl⟩ := h
      obtain ⟨hh, hm, ht, -⟩ := setDiffuseTexture_ok _ _ _ hs
      exact ⟨rfl, ht, hh, hm, meshBounds_ok lib model bounds hb⟩

/-- What a dropped `.png` does, when the body completes. -/
theorem replaceFromFile_png {K : Type} (lib : Lib K) (st : State K) (f : FrameInput K)
    (path : String) (calls : List (Call K)) (st' : State K)
    (hmodel : isModelFile lib path = false) (hpng : lib.IsFileExtension path ".png" = true)
    (h : replaceFromFile lib st f path = (calls, .ok st')) :
    st'.texture = f.loadTexture ∧
    st'.model.materials.head?.map (fun m => m.diffuseTexture) = some f.loadTexture ∧
    st'.model.handle = st.model.handle ∧
    st'.model.meshes = st.model.meshes ∧
    st'.bounds = st.bounds := by
  unfold replaceFromFile at h
  rw [hmodel] at h
  simp only [Bool.false_eq_true, if_false, hpng, if_true] at h
  rcases hs : setDiffuseTexture st.model f.loadTexture with e | model
  · simp [hs] at h
  · simp only [hs, Prod.mk.injEq, Except.ok.injEq] at h
    obtain ⟨-, rfl⟩ := h
    obtain ⟨hh, hm, ht, -⟩ := setDiffuseTexture_ok _ _ _ hs
    exact ⟨rfl, ht, hh, hm, rfl⟩

/-- A file with none of the seven extensions changes nothing. -/
theorem replaceFromFile_other {K : Type} (lib : Lib K) (st : State K) (f : FrameInput K)
    (path : String) (hmodel : isModelFile lib path = false)
    (hpng : lib.IsFileExtension path ".png" = false) :
    replaceFromFile lib st f path = ([], .ok st) := by
  simp [replaceFromFile, hmodel, hpng]

/-- The calls of the body for one dropped file, with what they do to the handles. -/
theorem replaceFromFile_calls {K : Type} (lib : Lib K) (st : State K) (f : FrameInput K)
    (path : String) (calls : List (Call K)) (st' : State K)
    (h : replaceFromFile lib st f path = (calls, .ok st')) :
    (calls = [Call.UnloadModel st.model, Call.LoadModel path f.loadModel] ∧
      st'.model.handle = f.loadModel.handle ∧ st'.texture = st.texture) ∨
    (calls = [Call.UnloadTexture st.texture, Call.LoadTexture path f.loadTexture] ∧
      st'.model.handle = st.model.handle ∧ st'.texture = f.loadTexture) ∨
    (calls = [] ∧ st' = st) := by
  by_cases hmodel : isModelFile lib path = true
  · left
    obtain ⟨ht, -, hh, -, -⟩ := replaceFromFile_model lib st f path calls st' hmodel h
    refine ⟨?_, hh, ht⟩
    unfold replaceFromFile at h
    rw [if_pos hmodel] at h
    rcases hs : setDiffuseTexture f.loadModel st.texture with e | model
    · simp [hs] at h
    · rcases hb : meshBounds lib model with e | bounds
      · simp [hs, hb] at h
      · simp only [hs, hb, Prod.mk.injEq, Except.ok.injEq] at h
        exact h.1.symm
  · have hmodel' : isModelFile lib path = false := by simpa using hmodel
    right
    by_cases hpng : lib.IsFileExtension path ".png" = true
    · left
      obtain ⟨ht, -, hh, -, -⟩ := replaceFromFile_png lib st f path calls st' hmodel' hpng h
      refine ⟨?_, hh, ht⟩
      unfold replaceFromFile at h
      rw [hmodel'] at h
      simp only [Bool.false_eq_true, if_false, hpng, if_true] at h
      rcases hs : setDiffuseTexture st.model f.loadTexture with e | model
      · simp [hs] at h
      · simp only [hs, Prod.mk.injEq, Except.ok.injEq] at h
        exact h.1.symm
    · right
      have hpng' : lib.IsFileExtension path ".png" = false := by simpa using hpng
      rw [replaceFromFile_other lib st f path hmodel' hpng'] at h
      simp only [Prod.mk.injEq, Except.ok.injEq] at h
      exact ⟨h.1.symm, h.2.symm⟩

/-- What `handleDrop` returns when it does not fault, by cases on the drop. -/
theorem handleDrop_ok {K : Type} (lib : Lib K)
    (st : State K) (f : FrameInput K) (calls : List (Call K)) (st' : State K)
    (h : handleDrop lib st f = (calls, .ok st')) :
    (f.isFileDropped = false ∧ calls = [] ∧ st' = st) ∨
    (f.isFileDropped = true ∧ (∀ path, f.droppedFiles ≠ [path]) ∧ st' = st ∧
      calls = [Call.LoadDroppedFiles f.droppedFiles, Call.UnloadDroppedFiles f.droppedFiles]) ∨
    (f.isFileDropped = true ∧ ∃ path inner, f.droppedFiles = [path] ∧
      replaceFromFile lib st f path = (inner, .ok st') ∧
      calls = Call.LoadDroppedFiles f.droppedFiles :: inner ++
        [Call.UnloadDroppedFiles f.droppedFiles]) := by
  unfold handleDrop at h
  by_cases hd : f.isFileDropped = true
  · simp only [hd, if_true] at h
    right
    rcases hfiles : f.droppedFiles with _ | ⟨path, _ | ⟨p2, rest⟩⟩
    · left
      simp only [hfiles, Prod.mk.injEq, Except.ok.injEq] at h
      obtain ⟨rfl, rfl⟩ := h
      simp [hd]
    · right
      rcases hr : replaceFromFile lib st f path with ⟨inner, e | s⟩
      · simp [hfiles, hr] at h
      · simp only [hfiles, hr, Prod.mk.injEq, Except.ok.injEq] at h
        obtain ⟨rfl, rfl⟩ := h
        exact ⟨hd, path, inner, rfl, hr, rfl⟩
    · left
      simp only [hfiles, Prod.mk.injEq, Except.ok.injEq] at h
      obtain ⟨rfl, rfl⟩ := h
      simp [hd]
  · simp only [hd] at h
    left
    simp only [Bool.false_eq_true, if_false, Prod.mk.injEq, Except.ok.injEq] at h
    obtain ⟨rfl, rfl⟩ := h
    simp [hd]

theorem handleDrop_sameView {K : Type} (lib : Lib K)
    (st : State K) (f : FrameInput K) (calls : List (Call K)) (st' : State K)
    (h : handleDrop lib st f = (calls, .ok st')) : SameView st st' := by
  rcases handleDrop_ok lib st f calls st' h with ⟨-, -, rfl⟩ | ⟨-, -, rfl, -⟩ |
    ⟨-, path, inner, -, hr, -⟩
  · simp [SameView]
  · simp [SameView]
  · exact replaceFromFile_sameView lib st f path inner st' hr

theorem onKeyR_eq {K : Type} [Field K] [DecidableEq K] (lib : Lib K)
    (st : State K) (f : FrameInput K) :
    onKeyR lib st f =
      { st with
        camera := { st.camera with
          position := if f.isKeyPressed .KEY_R then cameraHome else st.camera.position }
        camDirection :=
          if f.isKeyPressed .KEY_R then
            Vector3Normalize lib (Vector3Subtract st.camera.target cameraHome)
          else st.camDirection } := by
  unfold onKeyR
  split_ifs <;> rfl

theorem onKeyW_eq {K : Type} [Field K] (st : State K) (f : FrameInput K) :
    onKeyW st f = withPosition st (Vector3Add st.camera.position
      (Vector3Scale st.camDirection (ind (f.isKeyDown .KEY_W) * (15 * f.frameTime)))) := by
  unfold onKeyW withPosition
  split_ifs with h <;> simp [h, ind, Vector3Add, Vector3Scale, camSpeed]

theorem onKeyS_eq {K : Type} [Field K] (st : State K) (f : FrameInput K) :
    onKeyS st f = withPosition st (Vector3Add st.camera.position
      (Vector3Scale st.camDirection (-(ind (f.isKeyDown .KEY_S) * (15 * f.frameTime))))) := by
  unfold onKeyS withPosition
  split_ifs with h <;> simp [h, ind, Vector3Add, Vector3Scale, camSpeed]

theorem onKeyA_eq {K : Type} [Field K] (st : State K) (f : FrameInput K) :
    onKeyA st f = withPosition st (Vector3Add st.camera.position
      (Vector3Scale st.camDirectionRight (-(ind (f.isKeyDown .KEY_A) * (15 * f.frameTime))))) := by
  unfold onKeyA withPosition
  split_ifs with h <;> simp [h, ind, Vector3Add, Vector3Scale, camSpeed]

theorem onKeyD_eq {K : Type} [Field K] (st : State K) (f : FrameInput K) :
    onKeyD st f = withPosition st (Vector3Add st.camera.position
      (Vector3Scale st.camDirectionRight (ind (f.isKeyDown .KEY_D) * (15 * f.frameTime)))) := by
  unfold onKeyD withPosition
  split_ifs with h <;> simp [h, ind, Vector3Add, Vector3Scale, camSpeed]

theorem onKeyQ_eq {K : Type} [Field K] (st : State K) (f : FrameInput K) :
    onKeyQ st f = withPosition st (Vector3Add st.camera.position
      ⟨0, ind (f.isKeyDown .KEY_Q) * (15 * f.frameTime), 0⟩) := by
  unfold onKeyQ withPosition
  split_ifs with h <;> simp [h, ind, Vector3Add, camSpeed]

theorem onKeyE_eq {K : Type} [Field K] (st : State K) (f : FrameInput K) :
    onKeyE st f = withPosition st (Vector3Add st.camera.position
      ⟨0, -(ind (f.isKeyDown .KEY_E) * (15 * f.frameTime)), 0⟩) := by
  unfold onKeyE withPosition
  split_ifs with h <;> simp [h, ind, Vector3Add, camSpeed, sub_eq_add_neg]

/-- Key handling as one record: what each field is afterwards. -/
theorem handleKeys_eq {K : Type} [Field K] [DecidableEq K] (lib : Lib K)
    (st : State K) (f : FrameInput K) :
    handleKeys lib st f =
      { st with
        camera := (handleKeys lib st f).camera
        camDirection :=
          if f.isKeyPressed .KEY_R then
            Vector3Normalize lib (Vector3Subtract st.camera.target cameraHome)
          else st.camDirection
        camDirectionRight :=
          Vector3Normalize lib (Vector3CrossProduct st.camDirection st.camera.up) } := by
  simp only [handleKeys, onKeyE_eq, onKeyQ_eq, onKeyD_eq, onKeyA_eq, onKeyS_eq, onKeyW_eq,
    onKeyR_eq, updateRight, withPosition]

theorem handleKeys_camera {K : Type} [Field K] [DecidableEq K] (lib : Lib K)
    (st : State K) (f : FrameInput K) :
    (handleKeys lib st f).camera.target = st.camera.target ∧
    (handleKeys lib st f).camera.up = st.camera.up := by
  simp only [handleKeys, onKeyE_eq, onKeyQ_eq, onKeyD_eq, onKeyA_eq, onKeyS_eq, onKeyW_eq,
    onKeyR_eq, updateRight, withPosition, and_self]

/-- The camera position after the key handling, as one sum. -/
theorem handleKeys_position {K : Type} [Field K] [DecidableEq K] (lib : Lib K)
    (st : State K) (f : FrameInput K) :
    (handleKeys lib st f).camera.position =
      Vector3Add
        (Vector3Add (if f.isKeyPressed .KEY_R then cameraHome else st.camera.position)
          (Vector3Scale
            (Vector3Add
              (Vector3Scale (handleKeys lib st f).camDirection
                (ind (f.isKeyDown .KEY_W) - ind (f.isKeyDown .KEY_S)))
              (Vector3Scale (handleKeys lib st f).camDirectionRight
                (ind (f.isKeyDown .KEY_D) - ind (f.isKeyDown .KEY_A))))
            (15 * f.frameTime)))
        ⟨0, 15 * f.frameTime * (ind (f.isKeyDown .KEY_Q) - ind (f.isKeyDown .KEY_E)), 0⟩ := by
  simp only [handleKeys, onKeyE_eq, onKeyQ_eq, onKeyD_eq, onKeyA_eq, onKeyS_eq, onKeyW_eq,
    onKeyR_eq, updateRight, withPosition]
  simp only [Vector3Add, Vector3Scale, Vector3.mk.injEq]
  refine ⟨?_, ?_, ?_⟩ <;> ring

theorem onKeyZ_eq {K : Type} [Field K] (lib : Lib K) (st : State K) (f : FrameInput K) :
    onKeyZ lib st f =
      { st with
        modelRotAngleX := turnedBy lib st.modelRotAngleX (f.isKeyDown .KEY_Z) f.frameTime } := by
  unfold onKeyZ turnedBy
  split_ifs <;> rfl

theorem onKeyX_eq {K : Type} [Field K] (lib : Lib K) (st : State K) (f : FrameInput K) :
    onKeyX lib st f =
      { st with
        modelRotAngleY := turnedBy lib st.modelRotAngleY (f.isKeyDown .KEY_X) f.frameTime } := by
  unfold onKeyX turnedBy
  split_ifs <;> rfl

theorem onKeyC_eq {K : Type} [Field K] (lib : Lib K) (st : State K) (f : FrameInput K) :
    onKeyC lib st f =
      { st with
        modelRotAngleZ := turnedBy lib st.modelRotAngleZ (f.isKeyDown .KEY_C) f.frameTime } := by
  unfold onKeyC turnedBy
  split_ifs <;> rfl

theorem rotateModel_eq {K : Type} [Field K] (lib : Lib K) (st : State K) (f : FrameInput K) :
    rotateModel lib st f =
      { st with
        modelRotAngleX := turnedBy lib st.modelRotAngleX (f.isKeyDown .KEY_Z) f.frameTime
        modelRotAngleY := turnedBy lib st.modelRotAngleY (f.isKeyDown .KEY_X) f.frameTime
        modelRotAngleZ := turnedBy lib st.modelRotAngleZ (f.isKeyDown .KEY_C) f.frameTime } := by
  simp only [rotateModel, onKeyZ_eq, onKeyX_eq, onKeyC_eq]

theorem handleClick_eq {K : Type} (st : State K) (f : FrameInput K) :
    handleClick st f =
      { st with selected :=
          if f.isLeftButtonPressed then
            (if f.rayHitsBox st.camera st.bounds then !st.selected else false)
          else st.selected } := by
  unfold handleClick
  split_ifs <;> rfl

/-- Shape of an update that does not fault. -/
theorem frameUpdate_ok_iff {K : Type} [Field K] [DecidableEq K] (lib : Lib K) (st : State K)
    (f : FrameInput K) (calls : List (Call K)) (st' : State K) :
    frameUpdate lib st f = (calls, .ok st') ↔
      ∃ mid, handleDrop lib (beforeDrop lib st f) f = (calls, .ok mid) ∧
        st' = handleClick mid f := by
  unfold frameUpdate beforeDrop
  dsimp only
  rcases hd : handleDrop lib (rotateModel lib (handleMouse lib (handleKeys lib st f) f) f) f with
    ⟨c, e | s⟩
  · simp
  · simp only [Prod.mk.injEq, Except.ok.injEq]
    constructor
    · rintro ⟨rfl, rfl⟩
      exact ⟨s, ⟨rfl, rfl⟩, rfl⟩
    · rintro ⟨mid, ⟨rfl, rfl⟩, rfl⟩
      exact ⟨rfl, rfl⟩

theorem frameUpdate_of_no_drop {K : Type} [Field K] [DecidableEq K] (lib : Lib K)
    (st : State K) (f : FrameInput K) (h : f.isFileDropped = false) :
    frameUpdate lib st f = ([], .ok (handleClick (beforeDrop lib st f) f)) := by
  simp [frameUpdate, handleDrop, h, beforeDrop]

theorem beforeDrop_assets {K : Type} [Field K] [DecidableEq K] (lib : Lib K) (st : State K)
    (f : FrameInput K) :
    SameAssets st (beforeDrop lib st f) ∧ (beforeDrop lib st f).selected = st.selected := by
  unfold beforeDrop
  rw [rotateModel_eq]
  unfold handleMouse
  rw [handleKeys_eq]
  simp [SameAssets]

/-- An idle frame leaves the camera where it is. -/
theorem idle_keeps_position {K : Type} [Field K] [DecidableEq K] (lib : Lib K) (st : State K) :
    (handleClick (beforeDrop lib st idleFrame) idleFrame).camera.position =
      st.camera.position := by
  rw [handleClick_eq]
  unfold beforeDrop
  rw [rotateModel_eq]
  unfold handleMouse
  simp only
  rw [handleKeys_position]
  simp [idleFrame, ind, Vector3Add, Vector3Scale]

/-! ## The loop -/

theorem mainLoop_nil {K : Type} [Field K] [DecidableEq K] (lib : Lib K) (st : State K) :
    mainLoop lib st [] = ⟨[], [], .inLoop⟩ := rfl

theorem mainLoop_close {K : Type} [Field K] [DecidableEq K] (lib : Lib K) (st : State K)
    (f : FrameInput K) (fs : List (FrameInput K)) (h : f.windowShouldClose = true) :
    mainLoop lib st (f :: fs) =
      ⟨Call.WindowShouldClose true :: deinit st, [], .returned 0⟩ := by
  simp [mainLoop, h]

theorem mainLoop_fault {K : Type} [Field K] [DecidableEq K] (lib : Lib K) (st : State K)
    (f : FrameInput K) (fs : List (FrameInput K)) (h : f.windowShouldClose = false)
    (calls : List (Call K)) (e : Fault) (hu : frameUpdate lib st f = (calls, .error e)) :
    mainLoop lib st (f :: fs) = ⟨Call.WindowShouldClose false :: calls, [], .fault e⟩ := by
  simp [mainLoop, h, hu]

theorem mainLoop_step {K : Type} [Field K] [DecidableEq K] (lib : Lib K) (st : State K)
    (f : FrameInput K) (fs : List (FrameInput K)) (h : f.windowShouldClose = false)
    (calls : List (Call K)) (st' : State K) (hu : frameUpdate lib st f = (calls, .ok st')) :
    mainLoop lib st (f :: fs) =
      ⟨Call.WindowShouldClose false :: calls ++ frameDraw lib st' f ++ (mainLoop lib st' fs).trace,
        st' :: (mainLoop lib st' fs).drawn, (mainLoop lib st' fs).exit⟩ := by
  simp [mainLoop, h, hu]

/-- The three ways a pass of the loop can go. -/
theorem mainLoop_cases {K : Type} [Field K] [DecidableEq K] (lib : Lib K) (st : State K)
    (f : FrameInput K) (fs : List (FrameInput K)) :
    (f.windowShouldClose = true ∧
      mainLoop lib st (f :: fs) = ⟨Call.WindowShouldClose true :: deinit st, [], .returned 0⟩) ∨
    (f.windowShouldClose = false ∧ ∃ calls e, frameUpdate lib st f = (calls, .error e) ∧
      mainLoop lib st (f :: fs) = ⟨Call.WindowShouldClose false :: calls, [], .fault e⟩) ∨
    (f.windowShouldClose = false ∧ ∃ calls st', frameUpdate lib st f = (calls, .ok st') ∧
      mainLoop lib st (f :: fs) =
        ⟨Call.WindowShouldClose false :: calls ++ frameDraw lib st' f ++ (mainLoop lib st' fs).trace,
          st' :: (mainLoop lib st' fs).drawn, (mainLoop lib st' fs).exit⟩) := by
  by_cases h : f.windowShouldClose = true
  · exact Or.inl ⟨h, mainLoop_close lib st f fs h⟩
  · have h' : f.windowShouldClose = false := by simpa using h
    rcases hu : frameUpdate lib st f with ⟨calls, e | st'⟩
    · exact Or.inr (Or.inl ⟨h', calls, e, rfl, mainLoop_fault lib st f fs h' calls e hu⟩)
    · exact Or.inr (Or.inr ⟨h', calls, st', rfl, mainLoop_step lib st f fs h' calls st' hu⟩)

/-- The three ways `main` can go before the loop. -/
theorem main_cases {K : Type} [Field K] [DecidableEq K] (lib : Lib K) (init : InitInput)
    (frames : List (FrameInput K)) :
    (∃ e, main lib init frames = ⟨initCalls init, [], .fault e⟩ ∧ init.model.materials = []) ∨
    (init.model.meshes = [] ∧ init.model.materials ≠ [] ∧
      main lib init frames =
        ⟨initCalls init ++ [Call.TraceLog .LOG_ERROR "No se cargo el modelo"], [],
          .returned 0⟩) ∨
    (init.model.meshes ≠ [] ∧ init.model.materials ≠ [] ∧ ∃ model bounds,
      setDiffuseTexture init.model init.texture = .ok model ∧
      meshBounds lib model = .ok bounds ∧
      main lib init frames =
        ⟨initCalls init ++ [Call.DisableCursor, Call.SetTargetFPS 60] ++
            (mainLoop lib (initialState lib model init.texture bounds) frames).trace,
          (mainLoop lib (initialState lib model init.texture bounds) frames).drawn,
          (mainLoop lib (initialState lib model init.texture bounds) frames).exit⟩) := by
  unfold main
  rcases hs : setDiffuseTexture init.model init.texture with e | model
  · left
    refine ⟨e, rfl, ?_⟩
    by_contra hne
    obtain ⟨m, hm⟩ := setDiffuseTexture_of_ne_nil init.model init.texture hne
    rw [hm] at hs
    cases hs
  · right
    obtain ⟨-, hmesh, -, hmat⟩ := setDiffuseTexture_ok _ _ _ hs
    by_cases hm : model.meshes = []
    · left
      refine ⟨hmesh ▸ hm, hmat, ?_⟩
      simp [hm]
    · right
      refine ⟨hmesh ▸ hm, hmat, model, ?_⟩
      rcases hb : meshBounds lib model with e | bounds
      · exfalso
        unfold meshBounds at hb
        cases hmm : model.meshes with
        | nil => exact hm hmm
        | cons a l => simp [hmm] at hb
      · exact ⟨bounds, rfl, rfl, by simp [hm, hb]⟩

/-- Before the loop `main` either ends without a drawn frame or enters the loop. -/
theorem main_drawn {K : Type} [Field K] [DecidableEq K] (lib : Lib K) (init : InitInput)
    (frames : List (FrameInput K)) :
    (main lib init frames).drawn = [] ∨
    ∃ model bounds, setDiffuseTexture init.model init.texture = .ok model ∧
      meshBounds lib model = .ok bounds ∧
      (main lib init frames).drawn =
        (mainLoop lib (initialState lib model init.texture bounds) frames).drawn := by
  rcases main_cases lib init frames with ⟨e, hm, -⟩ | ⟨-, -, hm⟩ | ⟨-, -, model, bounds, hs, hb, hm⟩
  · left; rw [hm]
  · left; rw [hm]
  · right; exact ⟨model, bounds, hs, hb, by rw [hm]⟩

/-- A run of the loop that returns did so right after `WindowShouldClose` answered true:
the trace ends with that call and the de-initialisation, and the code is 0. -/
theorem mainLoop_returned {K : Type} [Field K] [DecidableEq K] (lib : Lib K)
    (frames : List (FrameInput K)) :
    ∀ (st : State K) (code : Int), (mainLoop lib st frames).exit = .returned code →
      code = 0 ∧ (∃ f ∈ frames, f.windowShouldClose = true) ∧
      ∃ before last, (mainLoop lib st frames).trace =
        before ++ Call.WindowShouldClose true :: deinit last := by
  induction frames with
  | nil => intro st code h; simp [mainLoop_nil] at h
  | cons f fs ih =>
    intro st code h
    rcases mainLoop_cases lib st f fs with ⟨hc, hm⟩ | ⟨-, c, e, -, hm⟩ | ⟨-, c, st', hu, hm⟩
    · rw [hm] at h ⊢
      simp only [Exit.returned.injEq] at h
      exact ⟨h.symm, ⟨f, List.mem_cons_self _ _, hc⟩, [], st, rfl⟩
    · simp [hm] at h
    · rw [hm] at h ⊢
      obtain ⟨h0, ⟨g, hg, hgc⟩, before, last, htr⟩ := ih st' code h
      refine ⟨h0, ⟨g, List.mem_cons_of_mem _ hg, hgc⟩,
        Call.WindowShouldClose false :: c ++ frameDraw lib st' f ++ before, last, ?_⟩
      simp [htr]

theorem consistent_of_sameAssets {K : Type} (lib : Lib K) (st st' : State K)
    (h : SameAssets st st') (hc : Consistent lib st) : Consistent lib st' := by
  obtain ⟨hm, ht, hb⟩ := h
  unfold Consistent
  rw [hm, ht, hb]
  exact hc

theorem replaceFromFile_consistent {K : Type} (lib : Lib K) (st : State K) (f : FrameInput K)
    (path : String) (calls : List (Call K)) (st' : State K) (hc : Consistent lib st)
    (h : replaceFromFile lib st f path = (calls, .ok st')) : Consistent lib st' := by
  by_cases hmodel : isModelFile lib path = true
  · obtain ⟨ht, hm, -, -, hb⟩ := replaceFromFile_model lib st f path calls st' hmodel h
    exact ⟨by rw [hm, ht], hb⟩
  · have hmodel' : isModelFile lib path = false := by simpa using hmodel
    by_cases hpng : lib.IsFileExtension path ".png" = true
    · obtain ⟨ht, hm, -, hmesh, hb⟩ :=
        replaceFromFile_png lib st f path calls st' hmodel' hpng h
      exact ⟨by rw [hm, ht], by rw [hmesh, hb]; exact hc.2⟩
    · have hpng' : lib.IsFileExtension path ".png" = false := by simpa using hpng
      rw [replaceFromFile_other lib st f path hmodel' hpng'] at h
      simp only [Prod.mk.injEq, Except.ok.injEq] at h
      obtain ⟨-, rfl⟩ := h
      exact hc

theorem frameUpdate_consistent {K : Type} [Field K] [DecidableEq K] (lib : Lib K)
    (st : State K) (f : FrameInput K) (calls : List (Call K)) (st' : State K)
    (hc : Consistent lib st) (h : frameUpdate lib st f = (calls, .ok st')) :
    Consistent lib st' := by
  obtain ⟨mid, hmid, rfl⟩ := (frameUpdate_ok_iff lib st f calls st').1 h
  have hb : Consistent lib (beforeDrop lib st f) :=
    consistent_of_sameAssets lib _ _ (beforeDrop_assets lib st f).1 hc
  have hmidc : Consistent lib mid := by
    rcases handleDrop_ok lib _ f calls mid hmid with ⟨-, -, rfl⟩ | ⟨-, -, rfl, -⟩ |
      ⟨-, path, inner, -, hr, -⟩
    · exact hb
    · exact hb
    · exact replaceFromFile_consistent lib _ f path inner mid hb hr
  rw [handleClick_eq]
  exact hmidc

theorem mainLoop_consistent {K : Type} [Field K] [DecidableEq K] (lib : Lib K)
    (frames : List (FrameInput K)) :
    ∀ st : State K, Consistent lib st → ∀ s ∈ (mainLoop lib st frames).drawn,
      Consistent lib s := by
  induction frames with
  | nil => intro st _ s hs; simp [mainLoop_nil] at hs
  | cons f fs ih =>
    intro st hc s hs
    rcases mainLoop_cases lib st f fs with ⟨-, hm⟩ | ⟨-, c, e, -, hm⟩ | ⟨-, c, st', hu, hm⟩
    · simp [hm] at hs
    · simp [hm] at hs
    · rw [hm] at hs
      have hc' := frameUpdate_consistent lib st f c st' hc hu
      rcases List.mem_cons.1 hs with rfl | hs'
      · exact hc'
      · exact ih st' hc' s hs'

theorem consistent_ne_nil {K : Type} (lib : Lib K) (st : State K) (hc : Consistent lib st) :
    st.model.materials ≠ [] ∧ st.model.meshes ≠ [] := by
  obtain ⟨h1, h2⟩ := hc
  constructor
  · intro h; rw [h] at h1; simp at h1
  · intro h; rw [h] at h2; simp at h2

/-- The body for one dropped file completes when the state is consistent and the model a
load would return has material 0 and mesh 0. -/
theorem replaceFromFile_completes {K : Type} (lib : Lib K) (st : State K) (f : FrameInput K)
    (path : String) (hc : Consistent lib st) (hmat : f.loadModel.materials ≠ [])
    (hmesh : f.loadModel.meshes ≠ []) :
    ∃ calls st', replaceFromFile lib st f path = (calls, .ok st') := by
  unfold replaceFromFile
  by_cases hmodel : isModelFile lib path = true
  · obtain ⟨model, hs⟩ := setDiffuseTexture_of_ne_nil f.loadModel st.texture hmat
    have hm : model.meshes ≠ [] := by
      rw [(setDiffuseTexture_ok _ _ _ hs).2.1]; exact hmesh
    obtain ⟨bounds, hb⟩ := meshBounds_of_ne_nil lib model hm
    simp [hmodel, hs, hb]
  · obtain ⟨model, hs⟩ :=
      setDiffuseTexture_of_ne_nil st.model f.loadTexture (consistent_ne_nil lib st hc).1
    by_cases hpng : lib.IsFileExtension path ".png" = true
    · simp [hmodel, hpng, hs]
    · simp [hmodel, hpng]

/-- The update of a frame completes under the same conditions. -/
theorem frameUpdate_completes {K : Type} [Field K] [DecidableEq K] (lib : Lib K)
    (st : State K) (f : FrameInput K) (hc : Consistent lib st)
    (hmat : f.loadModel.materials ≠ []) (hmesh : f.loadModel.meshes ≠ []) :
    ∃ calls st', frameUpdate lib st f = (calls, .ok st') := by
  have hb : Consistent lib (beforeDrop lib st f) :=
    consistent_of_sameAssets lib _ _ (beforeDrop_assets lib st f).1 hc
  have hd : ∃ calls mid, handleDrop lib (beforeDrop lib st f) f = (calls, .ok mid) := by
    unfold handleDrop
    by_cases hdrop : f.isFileDropped = true
    · rcases hfiles : f.droppedFiles with _ | ⟨path, _ | ⟨p2, rest⟩⟩
      · simp [hdrop]
      · obtain ⟨calls, st', hr⟩ :=
          replaceFromFile_completes lib (beforeDrop lib st f) f path hb hmat hmesh
        simp [hdrop, hr]
      · simp [hdrop]
    · simp [hdrop]
  obtain ⟨calls, mid, hmid⟩ := hd
  exact ⟨calls, handleClick mid f, (frameUpdate_ok_iff lib st f _ _).2 ⟨mid, hmid, rfl⟩⟩

theorem mainLoop_no_fault {K : Type} [Field K] [DecidableEq K] (lib : Lib K)
    (frames : List (FrameInput K)) :
    ∀ st : State K, Consistent lib st →
      (∀ f ∈ frames, f.loadModel.materials ≠ [] ∧ f.loadModel.meshes ≠ []) →
      ∀ e, (mainLoop lib st frames).exit ≠ .fault e := by
  induction frames with
  | nil => intro st _ _ e; simp [mainLoop_nil]
  | cons f fs ih =>
    intro st hc hloads e
    rcases mainLoop_cases lib st f fs with ⟨-, hm⟩ | ⟨-, c, e', hu, hm⟩ | ⟨-, c, st', hu, hm⟩
    · simp [hm]
    · obtain ⟨hmat, hmesh⟩ := hloads f (List.mem_cons_self _ _)
      obtain ⟨c2, st2, hok⟩ := frameUpdate_completes lib st f hc hmat hmesh
      rw [hok] at hu
      simp at hu
    · rw [hm]
      exact ih st' (frameUpdate_consistent lib st f c st' hc hu)
        (fun g hg => hloads g (List.mem_cons_of_mem _ hg)) e

/-- The part of claim C8 that does hold: when every model that `LoadModel` returns has
material 0 (raylib's contract) and every model loaded from a dropped file has a mesh 0, no
access to `meshes[0]` or `materials[0]` in `main` is out of bounds.  The initial load needs
no such proviso for its meshes: it is guarded by the check of main.c 71. -/
theorem no_fault_when_dropped_models_have_meshes {K : Type} [Field K] [DecidableEq K]
    (lib : Lib K) (init : InitInput) (frames : List (FrameInput K))
    (hinit : init.model.materials ≠ [])
    (hloads : ∀ f ∈ frames, f.loadModel.materials ≠ [] ∧ f.loadModel.meshes ≠ []) :
    ∀ e, (main lib init frames).exit ≠ .fault e := by
  intro e
  rcases main_cases lib init frames with ⟨e', -, hm⟩ | ⟨-, -, hm⟩ |
    ⟨-, -, model, bounds, hs, hb, hm⟩
  · exact absurd hm hinit
  · simp [hm]
  · rw [hm]
    exact mainLoop_no_fault lib frames _
      ⟨(setDiffuseTexture_ok _ _ _ hs).2.2.1, meshBounds_ok lib model bounds hb⟩ hloads e

/-! ## Loaded and unloaded handles -/

theorem liveAfter_append {K : Type} (a b : List (Call K)) :
    ∀ models textures, liveAfter (a ++ b) models textures =
      (liveAfter a models textures).bind (fun p => liveAfter b p.1 p.2) := by
  induction a with
  | nil => intro models textures; simp [liveAfter]
  | cons c rest ih =>
    intro models textures
    cases c <;> simp [liveAfter, ih] <;> split_ifs <;> simp_all

/-- A completed update unloads what it replaces: one model and one texture are loaded
before it, and one model and one texture, those of the new state, after it. -/
theorem liveAfter_frameUpdate {K : Type} [Field K] [DecidableEq K] (lib : Lib K)
    (st : State K) (f : FrameInput K) (calls : List (Call K)) (st' : State K)
    (h : frameUpdate lib st f = (calls, .ok st')) :
    liveAfter calls [st.model.handle] [st.texture.id] =
      some ([st'.model.handle], [st'.texture.id]) := by
  obtain ⟨mid, hmid, rfl⟩ := (frameUpdate_ok_iff lib st f calls st').1 h
  obtain ⟨⟨hm, ht, -⟩, -⟩ := beforeDrop_assets lib st f
  rw [handleClick_eq]
  simp only
  rcases handleDrop_ok lib _ f calls mid hmid with ⟨-, rfl, rfl⟩ | ⟨-, -, rfl, rfl⟩ |
    ⟨-, path, inner, -, hr, rfl⟩
  · simp [liveAfter, hm, ht]
  · simp [liveAfter, hm, ht]
  · rcases replaceFromFile_calls lib _ f path inner mid hr with ⟨rfl, hh, htex⟩ |
      ⟨rfl, hh, htex⟩ | ⟨rfl, rfl⟩
    · simp [liveAfter, hm, ht, hh, htex]
    · simp [liveAfter, hm, ht, hh, htex]
    · simp [liveAfter, hm, ht]

/-- Drawing a consistent state uses only what is loaded, and changes nothing. -/
theorem liveAfter_frameDraw {K : Type} [Field K] [DecidableEq K] (lib : Lib K)
    (st : State K) (f : FrameInput K) (hc : Consistent lib st) :
    liveAfter (frameDraw lib st f) [st.model.handle] [st.texture.id] =
      some ([st.model.handle], [st.texture.id]) := by
  have hmat : ∀ mat ∈ st.model.materials.head?, mat.diffuseTexture.id = st.texture.id := by
    intro mat hmat
    have h1 := hc.1
    rw [Option.mem_def.1 hmat] at h1
    simp only [Option.map_some', Option.some.injEq] at h1
    rw [h1]
  unfold frameDraw DrawAxes
  by_cases hsel : st.selected = true <;> simp [liveAfter, hsel] <;> exact hmat

/-- A run of the loop that returns leaves no model and no texture loaded, and never
unloads or draws with a handle that is not loaded. -/
theorem liveAfter_mainLoop {K : Type} [Field K] [DecidableEq K] (lib : Lib K)
    (frames : List (FrameInput K)) :
    ∀ (st : State K) (code : Int), Consistent lib st →
      (mainLoop lib st frames).exit = .returned code →
      liveAfter (mainLoop lib st frames).trace [st.model.handle] [st.texture.id] =
        some ([], []) := by
  induction frames with
  | nil => intro st code _ h; simp [mainLoop_nil] at h
  | cons f fs ih =>
    intro st code hc h
    rcases mainLoop_cases lib st f fs with ⟨-, hm⟩ | ⟨-, c, e, -, hm⟩ | ⟨-, c, st', hu, hm⟩
    · rw [hm]
      simp [liveAfter, deinit]
    · simp [hm] at h
    · rw [hm] at h ⊢
      have hc' := frameUpdate_consistent lib st f c st' hc hu
      have htr : Call.WindowShouldClose false :: c ++ frameDraw lib st' f ++ (mainLoop lib st' fs).trace
          = [Call.WindowShouldClose false] ++ (c ++ (frameDraw lib st' f ++ (mainLoop lib st' fs).trace)) := by
        simp
      have h0 : liveAfter [Call.WindowShouldClose (K := K) false] [st.model.handle] [st.texture.id]
          = some ([st.model.handle], [st.texture.id]) := rfl
      simp only [htr]
      rw [liveAfter_append, h0, Option.some_bind, liveAfter_append,
        liveAfter_frameUpdate lib st f c st' hu, Option.some_bind, liveAfter_append,
        liveAfter_frameDraw lib st' f hc', Option.some_bind]
      exact ih st' code hc' h

/-- The other half of claim C1, which does hold: on every run of `main` that enters the
loop and returns, each model and texture that was loaded is unloaded exactly once, none is
unloaded when it is not loaded, none is drawn with after its unload, and none is left loaded
at the return. -/
theorem returning_run_unloads_every_handle {K : Type} [Field K] [DecidableEq K] (lib : Lib K)
    (init : InitInput) (frames : List (FrameInput K)) (code : Int)
    (hmesh : init.model.meshes ≠ [])
    (hret : (main lib init frames).exit = .returned code) :
    liveAfter (main lib init frames).trace [] [] = some ([], []) := by
  rcases main_cases lib init frames with ⟨e, hm, -⟩ | ⟨hnil, -, -⟩ |
    ⟨-, -, model, bounds, hs, hb, hm⟩
  · simp [hm] at hret
  · exact absurd hnil hmesh
  · rw [hm] at hret ⊢
    obtain ⟨hh, -, hmat, -⟩ := setDiffuseTexture_ok _ _ _ hs
    have hc : Consistent lib (initialState lib model init.texture bounds) :=
      ⟨hmat, meshBounds_ok lib model bounds hb⟩
    have hloop := liveAfter_mainLoop lib frames _ code hc hret
    have hentry : liveAfter
        (initCalls (K := K) init ++ [Call.DisableCursor, Call.SetTargetFPS 60]) [] [] =
        some ([(initialState lib model init.texture bounds).model.handle],
          [(initialState lib model init.texture bounds).texture.id]) := by
      simp [initCalls, liveAfter, initialState, hh]
    rw [liveAfter_append, hentry, Option.some_bind]
    exact hloop

/-! ## Exact arithmetic: lengths and rotations -/

section exact
variable {K : Type} [LinearOrderedField K]

theorem normSq_nonneg (v : Vector3 K) : 0 ≤ normSq v := by
  unfold normSq
  nlinarith [mul_self_nonneg v.x, mul_self_nonneg v.y, mul_self_nonneg v.z]

theorem normSq_eq_zero (v : Vector3 K) : normSq v = 0 ↔ v = ⟨0, 0, 0⟩ := by
  constructor
  · intro h
    unfold normSq at h
    have hx : v.x * v.x = 0 := by
      nlinarith [mul_self_nonneg v.x, mul_self_nonneg v.y, mul_self_nonneg v.z]
    have hy : v.y * v.y = 0 := by
      nlinarith [mul_self_nonneg v.x, mul_self_nonneg v.y, mul_self_nonneg v.z]
    have hz : v.z * v.z = 0 := by
      nlinarith [mul_self_nonneg v.x, mul_self_nonneg v.y, mul_self_nonneg v.z]
    cases v
    simp only [Vector3.mk.injEq]
    exact ⟨mul_self_eq_zero.1 hx, mul_self_eq_zero.1 hy, mul_self_eq_zero.1 hz⟩
  · rintro rfl
    simp [normSq]

theorem sqrtf_eq_zero (lib : Lib K) (hm : ExactMath lib) (x : K) (hx : 0 ≤ x) :
    lib.sqrtf x = 0 ↔ x = 0 := by
  constructor
  · intro h
    have := hm.1 x hx
    rw [h] at this
    simpa using this.symm
  · rintro rfl
    exact mul_self_eq_zero.1 (hm.1 0 (le_refl 0))

theorem sqrtf_eq_one (lib : Lib K) (hm : ExactMath lib) (x : K) (hx : 0 ≤ x) :
    lib.sqrtf x = 1 ↔ x = 1 := by
  constructor
  · intro h
    have := hm.1 x hx
    rw [h] at this
    simpa using this.symm
  · rintro rfl
    have h1 := hm.1 1 zero_le_one
    have h2 := hm.2.1 1
    nlinarith

theorem length_eq_one (lib : Lib K) (hm : ExactMath lib) (v : Vector3 K) :
    Vector3Length lib v = 1 ↔ normSq v = 1 :=
  sqrtf_eq_one lib hm _ (normSq_nonneg v)

theorem normalize_normSq (lib : Lib K) (hm : ExactMath lib) (v : Vector3 K)
    (hv : v ≠ ⟨0, 0, 0⟩) : normSq (Vector3Normalize lib v) = 1 := by
  have hn : normSq v ≠ 0 := fun h => hv ((normSq_eq_zero v).1 h)
  have hl : lib.sqrtf (normSq v) ≠ 0 := fun h =>
    hn ((sqrtf_eq_zero lib hm _ (normSq_nonneg v)).1 h)
  have hsq := hm.1 (normSq v) (normSq_nonneg v)
  unfold Vector3Normalize
  unfold normSq at hl hsq ⊢
  simp only [ne_eq, hl, not_false_eq_true, if_true]
  field_simp
  linear_combination -hsq

theorem normalize_zero (lib : Lib K) :
    Vector3Normalize lib (⟨0, 0, 0⟩ : Vector3 K) = ⟨0, 0, 0⟩ := by
  unfold Vector3Normalize
  simp

theorem rodrigues_normSq (v w : Vector3 K) (a : K) (h : normSq w + a * a = 1) :
    normSq (rodrigues v w a) = normSq v := by
  unfold normSq rodrigues at *
  simp only
  linear_combination
    (4 * ((w.y * v.z - w.z * v.y) * (w.y * v.z - w.z * v.y) +
      (w.z * v.x - w.x * v.z) * (w.z * v.x - w.x * v.z) +
      (w.x * v.y - w.y * v.x) * (w.x * v.y - w.y * v.x))) * h

theorem rodrigues_zero_axis (v : Vector3 K) (a : K) : rodrigues v ⟨0, 0, 0⟩ a = v := by
  cases v
  simp [rodrigues]

theorem rotate_eq_rodrigues [DecidableEq K] (lib : Lib K) (v axis : Vector3 K) (angle : K) :
    Vector3RotateByAxisAngle lib v axis angle =
      rodrigues v
        ⟨axis.x * (1 / (if lib.sqrtf (normSq axis) = 0 then 1 else lib.sqrtf (normSq axis))) *
            lib.sinf (angle / 2),
          axis.y * (1 / (if lib.sqrtf (normSq axis) = 0 then 1 else lib.sqrtf (normSq axis))) *
            lib.sinf (angle / 2),
          axis.z * (1 / (if lib.sqrtf (normSq axis) = 0 then 1 else lib.sqrtf (normSq axis))) *
            lib.sinf (angle / 2)⟩
        (lib.cosf (angle / 2)) := by
  rfl

theorem rotate_normSq (lib : Lib K) (hm : ExactMath lib) (v axis : Vector3 K) (angle : K) :
    normSq (Vector3RotateByAxisAngle lib v axis angle) = normSq v := by
  rw [rotate_eq_rodrigues]
  by_cases h0 : lib.sqrtf (normSq axis) = 0
  · have hax : axis = ⟨0, 0, 0⟩ :=
      (normSq_eq_zero axis).1 ((sqrtf_eq_zero lib hm _ (normSq_nonneg axis)).1 h0)
    subst hax
    simp only [zero_mul]
    rw [rodrigues_zero_axis]
  · apply rodrigues_normSq
    have hsq := hm.1 (normSq axis) (normSq_nonneg axis)
    have htrig := hm.2.2 (angle / 2)
    simp only [h0, if_false]
    unfold normSq at hsq h0 ⊢
    simp only
    field_simp
    linear_combination
      (lib.sqrtf (axis.x * axis.x + axis.y * axis.y + axis.z * axis.z)) ^ 2 * htrig
        - (lib.sinf (angle / 2)) ^ 2 * hsq

theorem rotate_length (lib : Lib K) (hm : ExactMath lib) (v axis : Vector3 K) (angle : K)
    (hv : Vector3Length lib v = 1) :
    Vector3Length lib (Vector3RotateByAxisAngle lib v axis angle) = 1 := by
  rw [length_eq_one lib hm] at hv ⊢
  rw [rotate_normSq lib hm, hv]

theorem normalize_length (lib : Lib K) (hm : ExactMath lib) (v : Vector3 K)
    (hv : v ≠ ⟨0, 0, 0⟩) : Vector3Length lib (Vector3Normalize lib v) = 1 :=
  (length_eq_one lib hm _).2 (normalize_normSq lib hm v hv)

theorem subtract_eq_zero (a b : Vector3 K) : Vector3Subtract a b = ⟨0, 0, 0⟩ ↔ a = b := by
  cases a; cases b
  simp [Vector3Subtract, sub_eq_zero]

theorem initialState_length (lib : Lib K) (hm : ExactMath lib) (model : Model)
    (texture : Texture2D) (bounds : BoundingBox K) :
    Vector3Length lib (initialState lib model texture bounds).camDirection = 1 ∧
    (initialState lib model texture bounds).camera.target ≠ cameraHome := by
  constructor
  · apply normalize_length lib hm
    simp [Vector3Subtract, initialCamera, cameraHome]
  · simp [initialState, initialCamera, cameraHome]

/-- Mouse look keeps the length of `camDirection` and puts the target one `camDirection`
away from the position. -/
theorem handleMouse_length (lib : Lib K) (hm : ExactMath lib) (st : State K)
    (f : FrameInput K) (h : Vector3Length lib st.camDirection = 1) :
    Vector3Length lib (handleMouse lib st f).camDirection = 1 ∧
    Vector3Distance lib (handleMouse lib st f).camera.position
      (handleMouse lib st f).camera.target = 1 := by
  have hd : Vector3Length lib (handleMouse lib st f).camDirection = 1 := by
    unfold handleMouse
    exact rotate_length lib hm _ _ _ (rotate_length lib hm _ _ _ h)
  refine ⟨hd, ?_⟩
  rw [length_eq_one lib hm] at hd
  have : Vector3Distance lib (handleMouse lib st f).camera.position
      (handleMouse lib st f).camera.target =
      lib.sqrtf (normSq (handleMouse lib st f).camDirection) := by
    unfold handleMouse Vector3Distance normSq Vector3Add
    simp only [add_sub_cancel_left]
  rw [this, hd]
  exact (sqrtf_eq_one lib hm 1 zero_le_one).2 rfl

/-- One frame keeps `camDirection` at length 1, unless `R` is pressed while the camera
target is the home position. -/
theorem frameUpdate_length (lib : Lib K) (hm : ExactMath lib) (st : State K)
    (f : FrameInput K) (calls : List (Call K)) (st' : State K)
    (hu : frameUpdate lib st f = (calls, .ok st'))
    (h : Vector3Length lib st.camDirection = 1)
    (hclear : f.isKeyPressed .KEY_R = true → st.camera.target ≠ cameraHome) :
    Vector3Length lib st'.camDirection = 1 ∧
    Vector3Distance lib st'.camera.position st'.camera.target = 1 := by
  obtain ⟨mid, hmid, rfl⟩ := (frameUpdate_ok_iff lib st f calls st').1 hu
  obtain ⟨hcam, hdir, -⟩ := handleDrop_sameView lib _ f calls mid hmid
  have hk : Vector3Length lib (handleKeys lib st f).camDirection = 1 := by
    rw [handleKeys_eq]
    by_cases hR : f.isKeyPressed .KEY_R = true
    · simp only [hR, if_true]
      apply normalize_length lib hm
      intro h0
      exact hclear hR ((subtract_eq_zero _ _).1 h0)
    · simp only [hR]
      exact h
  have hmouse := handleMouse_length lib hm (handleKeys lib st f) f hk
  rw [handleClick_eq]
  simp only [hcam, hdir]
  unfold beforeDrop
  rw [rotateModel_eq]
  exact hmouse

/-- Along the loop `camDirection` keeps length 1 as long as no frame presses `R` with the
camera target at the home position. -/
theorem mainLoop_length (lib : Lib K) (hm : ExactMath lib) (frames : List (FrameInput K)) :
    ∀ st : State K, Vector3Length lib st.camDirection = 1 →
      (∀ p ∈ List.zip (st :: (mainLoop lib st frames).drawn) frames,
        p.2.windowShouldClose = false → p.2.isKeyPressed .KEY_R = true →
        p.1.camera.target ≠ cameraHome) →
      ∀ s ∈ (mainLoop lib st frames).drawn,
        Vector3Length lib s.camDirection = 1 ∧
        Vector3Distance lib s.camera.position s.camera.target = 1 := by
  induction frames with
  | nil => intro st _ _ s hs; simp [mainLoop_nil] at hs
  | cons f fs ih =>
    intro st h hclear s hs
    rcases mainLoop_cases lib st f fs with ⟨-, hml⟩ | ⟨-, c, e, -, hml⟩ | ⟨hopen, c, st', hu, hml⟩
    · simp [hml] at hs
    · simp [hml] at hs
    · rw [hml] at hs hclear
      simp only [List.zip_cons_cons, List.mem_cons, forall_eq_or_imp] at hclear
      have hst' := frameUpdate_length lib hm st f c st' hu h (hclear.1 hopen)
      rcases List.mem_cons.1 hs with rfl | hs'
      · exact hst'
      · exact ih st' hst'.1 hclear.2 s hs'

theorem rotate_angle_zero [DecidableEq K] (lib : Lib K) (h : lib.sinf 0 = 0)
    (v axis : Vector3 K) : Vector3RotateByAxisAngle lib v axis 0 = v := by
  rw [rotate_eq_rodrigues]
  simp only [zero_div, h, mul_zero]
  exact rodrigues_zero_axis v _

theorem rotate_zero_vector [DecidableEq K] (lib : Lib K) (axis : Vector3 K) (angle : K) :
    Vector3RotateByAxisAngle lib ⟨0, 0, 0⟩ axis angle = ⟨0, 0, 0⟩ := by
  rw [rotate_eq_rodrigues]
  simp [rodrigues]

/-- Backing off by one `camDirection` and then pressing `R`: the first frame leaves the
target on the home position, so the second aims `camDirection` from home at home. -/
theorem back_then_reset (lib : Lib K) (h : lib.sinf 0 = 0) (st : State K) :
    (st.camera.position = cameraHome →
      (handleClick (beforeDrop lib st backFrame) backFrame).camera.target = cameraHome) ∧
    (st.camera.target = cameraHome →
      (handleClick (beforeDrop lib st resetFrame) resetFrame).camDirection = ⟨0, 0, 0⟩ ∧
      (handleClick (beforeDrop lib st resetFrame) resetFrame).camera.target =
        (handleClick (beforeDrop lib st resetFrame) resetFrame).camera.position) := by
  constructor
  · intro hpos
    rw [handleClick_eq]
    unfold beforeDrop
    rw [rotateModel_eq]
    unfold handleMouse
    have hp : (-(backFrame : FrameInput K).mouseDelta.y * (1 / 10) * (backFrame : FrameInput K).frameTime) = 0 := by
      simp [backFrame, idleFrame]
    have hy : (-(backFrame : FrameInput K).mouseDelta.x * (1 / 10) * (backFrame : FrameInput K).frameTime) = 0 := by
      simp [backFrame, idleFrame]
    simp only [hp, hy, rotate_angle_zero lib h]
    rw [handleKeys_position, handleKeys_eq]
    simp only [backFrame, idleFrame, hpos, ind, Vector3Add, Vector3Scale, cameraHome]
    simp
  · intro htarget
    rw [handleClick_eq]
    unfold beforeDrop
    rw [rotateModel_eq]
    unfold handleMouse
    have hd : (handleKeys lib st resetFrame).camDirection = ⟨0, 0, 0⟩ := by
      rw [handleKeys_eq]
      simp only [resetFrame, htarget]
      have : Vector3Subtract (cameraHome : Vector3 K) cameraHome = ⟨0, 0, 0⟩ :=
        (subtract_eq_zero _ _).2 rfl
      simp [this, normalize_zero]
    simp only [hd, rotate_zero_vector]
    simp [Vector3Add]

end exact

/-! ## Binary32 rounding: how it is evaluated, and that it is a `Rounding` -/

/-- A number strictly within a half of an integer rounds to it. -/
theorem roundHalfEven_eq_of_near (q : ℚ) (n : ℤ) (h1 : (n : ℚ) - 1 / 2 < q)
    (h2 : q < (n : ℚ) + 1 / 2) : roundHalfEven q = n := by
  unfold roundHalfEven
  by_cases hq : (n : ℚ) ≤ q
  · have hf : ⌊q⌋ = n := Int.floor_eq_iff.2 ⟨hq, by linarith⟩
    rw [hf]
    have : q - (n : ℚ) < 1 / 2 := by linarith
    rw [if_pos this]
  · have hq' : q < n := lt_of_not_le hq
    have hf : ⌊q⌋ = n - 1 := Int.floor_eq_iff.2 ⟨by push_cast; linarith, by push_cast; linarith⟩
    rw [hf]
    have h3 : ¬ (q - ((n - 1 : ℤ) : ℚ) < 1 / 2) := by push_cast; linarith
    have h4 : (1 : ℚ) / 2 < q - ((n - 1 : ℤ) : ℚ) := by push_cast; linarith
    simp only [h3, h4, if_false, if_true]
    ring

theorem roundHalfEven_intCast (n : ℤ) : roundHalfEven (n : ℚ) = n :=
  roundHalfEven_eq_of_near _ n (by linarith) (by linarith)

theorem two_zpow_pos (k : ℤ) : (0 : ℚ) < 2 ^ k := zpow_pos (by norm_num) k

/-- The binade of a positive number fixes its exponent. -/
theorem int_log_two_eq (x : ℚ) (k : ℤ) (hlo : (2 : ℚ) ^ k ≤ x) (hhi : x < (2 : ℚ) ^ (k + 1)) :
    Int.log 2 x = k := by
  have hx : 0 < x := lt_of_lt_of_le (two_zpow_pos k) hlo
  have h1 : k ≤ Int.log 2 x := by
    rw [← Int.zpow_le_iff_le_log (by norm_num) hx]
    simpa using hlo
  have h2 : Int.log 2 x < k + 1 := by
    rw [← Int.lt_zpow_iff_log_lt (by norm_num) hx]
    simpa using hhi
  omega

theorem float32Exponent_of_binade (x : ℚ) (k : ℤ) (hlo : (2 : ℚ) ^ k ≤ x)
    (hhi : x < (2 : ℚ) ^ (k + 1)) : float32Exponent x = max (k - 23) (-149) := by
  have hx : 0 < x := lt_of_lt_of_le (two_zpow_pos k) hlo
  unfold float32Exponent
  rw [abs_of_pos hx, int_log_two_eq x k hlo hhi]

/-- How `roundFloat32` is evaluated at a positive number: find its binade, scale, round to
the nearest integer. -/
theorem roundFloat32_eq (x : ℚ) (k m : ℤ) (hlo : (2 : ℚ) ^ k ≤ x) (hhi : x < (2 : ℚ) ^ (k + 1))
    (h1 : (m : ℚ) - 1 / 2 < x / 2 ^ max (k - 23) (-149))
    (h2 : x / 2 ^ max (k - 23) (-149) < (m : ℚ) + 1 / 2) :
    roundFloat32 x = m * 2 ^ max (k - 23) (-149) := by
  unfold roundFloat32
  rw [float32Exponent_of_binade x k hlo hhi, roundHalfEven_eq_of_near _ m h1 h2]

/-- A power of two is an integer multiple of every smaller power of two. -/
theorem two_zpow_eq_int_mul (j e : ℤ) (h : e ≤ j) :
    (2 : ℚ) ^ j = ((2 ^ (j - e).toNat : ℤ) : ℚ) * 2 ^ e := by
  push_cast
  rw [← zpow_natCast, Int.toNat_of_nonneg (by omega), ← zpow_add₀ (by norm_num)]
  congr 1
  ring

/-- A number on a grid at least as coarse as its own is kept by the rounding. -/
theorem roundFloat32_of_grid (z : ℚ) (m e : ℤ) (hz : z = m * 2 ^ e)
    (he : float32Exponent z ≤ e) : roundFloat32 z = z := by
  unfold roundFloat32
  generalize float32Exponent z = E at he ⊢
  have hp := two_zpow_pos E
  have hgrid : z = ((m * 2 ^ (e - E).toNat : ℤ) : ℚ) * 2 ^ E := by
    rw [hz, two_zpow_eq_int_mul e E he]
    push_cast
    ring
  have hdiv : z / 2 ^ E = ((m * 2 ^ (e - E).toNat : ℤ) : ℚ) := by
    rw [div_eq_iff hp.ne']
    exact hgrid
  rw [hdiv, roundHalfEven_intCast]
  exact hgrid.symm

theorem roundFloat32_two_zpow (c : ℤ) (hc : -149 ≤ c) : roundFloat32 ((2 : ℚ) ^ c) = 2 ^ c := by
  apply roundFloat32_of_grid _ 1 c (by simp)
  rw [float32Exponent_of_binade _ c (le_refl _) (zpow_lt_zpow_right₀ (by norm_num) (by omega))]
  exact max_le (by omega) hc

/-- The evaluation rule with the exponent named, for use at numerals. -/
theorem roundFloat32_eval (x : ℚ) (k e m : ℤ) (he : e = max (k - 23) (-149))
    (hlo : (2 : ℚ) ^ k ≤ x) (hhi : x < (2 : ℚ) ^ (k + 1))
    (h1 : (m : ℚ) - 1 / 2 < x / 2 ^ e) (h2 : x / 2 ^ e < (m : ℚ) + 1 / 2) :
    roundFloat32 x = m * 2 ^ e := by
  subst he
  exact roundFloat32_eq x k m hlo hhi h1 h2

theorem roundFloat32_tenth : roundFloat32 (1 / 10) = 13421773 / 134217728 := by
  rw [roundFloat32_eval _ (-4) (-27) 13421773 (by decide) (by norm_num) (by norm_num)
    (by norm_num) (by norm_num)]
  norm_num

theorem float32Lib_fl (x : ℚ) : float32Lib.fl x = roundFloat32 x := rfl

theorem roundFloat32_nine_tenths :
    roundFloat32 (1 - 13421773 / 134217728) = 15099494 / 16777216 := by
  rw [roundFloat32_eval _ (-1) (-24) 15099494 (by decide) (by norm_num) (by norm_num)
    (by norm_num) (by norm_num)]
  norm_num

theorem roundFloat32_tenth_of_least :
    roundFloat32 (2 ^ (-149 : ℤ) / 10) = 0 := by
  rw [roundFloat32_eval _ (-153) (-149) 0 (by decide) (by norm_num) (by norm_num)
    (by norm_num) (by norm_num)]
  norm_num

/-! ## The segments of `DrawAxes` -/

/-- The segments that rlgl reads from the calls of `DrawAxes`, with the rounded coordinates
of the arrowhead points. -/
theorem DrawAxes_lines {K : Type} [Field K] (lib : Lib K) (s : K) :
    linesOf (0, 0, 0) none (DrawAxes lib s).2 =
      [ ⟨1, 0, 0, ⟨0, 0, 0⟩, ⟨s, 0, 0⟩⟩,
        ⟨1, 0, 0, ⟨s, 0, 0⟩, ⟨lib.fl (s - lib.fl (s / 10)), 0, lib.fl (s / 10)⟩⟩,
        ⟨1, 0, 0, ⟨s, 0, 0⟩, ⟨lib.fl (s - lib.fl (s / 10)), 0, -(lib.fl (s / 10))⟩⟩,
        ⟨0, 1, 0, ⟨0, 0, 0⟩, ⟨0, s, 0⟩⟩,
        ⟨0, 1, 0, ⟨0, s, 0⟩, ⟨0, lib.fl (s - lib.fl (s / 10)), lib.fl (s / 10)⟩⟩,
        ⟨0, 1, 0, ⟨0, s, 0⟩, ⟨0, lib.fl (s - lib.fl (s / 10)), -(lib.fl (s / 10))⟩⟩,
        ⟨0, 0, 1, ⟨0, 0, 0⟩, ⟨0, 0, s⟩⟩,
        ⟨0, 0, 1, ⟨0, 0, s⟩, ⟨lib.fl (s / 10), 0, lib.fl (s - lib.fl (s / 10))⟩⟩,
        ⟨0, 0, 1, ⟨0, 0, s⟩, ⟨-(lib.fl (s / 10)), 0, lib.fl (s - lib.fl (s / 10))⟩⟩ ] := rfl


/-! ## The claims -/

/-- Claim C1 fails on the early return: with the model load failed (no meshes) `main`
makes the two loads, logs the error and returns 0, and the texture that `LoadTexture`
returned, like the model, is never unloaded (nor is the window closed). -/
theorem failed_load_leaks_texture :
    (main ratLib failedLoad [closeFrame]).exit = .returned 0 ∧
    (main ratLib failedLoad [closeFrame]).trace =
      [ Call.InitWindow 800 450 "raylib [models] example - models loading",
        Call.SearchAndSetResourceDir "resources",
        Call.LoadModel "monedita.glb" ⟨1, [], [⟨⟨0⟩⟩]⟩,
        Call.LoadTexture "wabbit-alpha.png" ⟨7⟩,
        Call.TraceLog .LOG_ERROR "No se cargo el modelo" ] ∧
    Call.LoadTexture "wabbit-alpha.png" ⟨7⟩ ∈ (main ratLib failedLoad [closeFrame]).trace ∧
    (∀ t, Call.UnloadTexture t ∉ (main ratLib failedLoad [closeFrame]).trace) ∧
    (∀ m, Call.UnloadModel m ∉ (main ratLib failedLoad [closeFrame]).trace) ∧
    liveAfter (main ratLib failedLoad [closeFrame]).trace [] [] = some ([1], [7]) := by
  have htrace : (main ratLib failedLoad [closeFrame]).trace =
      [ Call.InitWindow 800 450 "raylib [models] example - models loading",
        Call.SearchAndSetResourceDir "resources",
        Call.LoadModel "monedita.glb" ⟨1, [], [⟨⟨0⟩⟩]⟩,
        Call.LoadTexture "wabbit-alpha.png" ⟨7⟩,
        Call.TraceLog .LOG_ERROR "No se cargo el modelo" ] := rfl
  refine ⟨rfl, htrace, ?_, ?_, ?_, rfl⟩
  · rw [htrace]; simp
  · intro t; rw [htrace]; simp
  · intro m; rw [htrace]; simp

/-- Claim C2: if the initial model load fails (`meshes == NULL`; the model still carries
material 0, as every model that raylib's `LoadModel` returns does), `main` makes the four
initial calls, logs the error and returns 0, whatever the frame inputs are: no pass of the
loop runs, so there is no `WindowShouldClose` poll, no update and no draw call.  If the load
succeeds, `main` returns only right after a `WindowShouldClose` that answered true. -/
theorem failed_load_returns_before_loop {K : Type} [Field K] [DecidableEq K] (lib : Lib K)
    (init : InitInput) (frames : List (FrameInput K))
    (hmat : init.model.materials ≠ []) :
    (init.model.meshes = [] →
      main lib init frames =
        ⟨initCalls init ++ [Call.TraceLog .LOG_ERROR "No se cargo el modelo"], [],
          .returned 0⟩) ∧
    (init.model.meshes ≠ [] →
      ∀ code, (main lib init frames).exit = .returned code →
        code = 0 ∧ (∃ f ∈ frames, f.windowShouldClose = true) ∧
        ∃ before last, (main lib init frames).trace =
          before ++ Call.WindowShouldClose true :: deinit last) := by
  rcases main_cases lib init frames with ⟨e, -, hm⟩ | ⟨hmesh, -, hm⟩ |
    ⟨hmesh, -, model, bounds, -, -, hm⟩
  · exact absurd hm hmat
  · exact ⟨fun _ => hm, fun h => absurd hmesh h⟩
  · refine ⟨fun h => absurd h hmesh, fun _ code hcode => ?_⟩
    rw [hm] at hcode ⊢
    obtain ⟨h0, hf, before, last, htr⟩ := mainLoop_returned lib frames _ code hcode
    exact ⟨h0, hf, initCalls init ++ [Call.DisableCursor, Call.SetTargetFPS 60] ++ before, last,
      by simp [htr]⟩

/-- Claim C2 at concrete loads: the failed load returns 0 after the log with two frames of
input left unread, and the good load returns 0 after the frame that closes the window. -/
theorem failed_load_returns_before_loop_witness :
    failedLoad.model.materials ≠ [] ∧
    main ratLib failedLoad [idleFrame, closeFrame] =
      ⟨initCalls failedLoad ++ [Call.TraceLog .LOG_ERROR "No se cargo el modelo"], [],
        .returned 0⟩ ∧
    ((0 : Int) = 0 ∧
      (∃ f ∈ [(idleFrame : FrameInput ℚ), closeFrame], f.windowShouldClose = true) ∧
      ∃ before last, (main ratLib goodLoad [idleFrame, closeFrame]).trace =
        before ++ Call.WindowShouldClose true :: deinit last) :=
  ⟨by decide,
    (failed_load_returns_before_loop ratLib failedLoad [idleFrame, closeFrame] (by decide)).1 rfl,
    (failed_load_returns_before_loop ratLib goodLoad [idleFrame, closeFrame] (by decide)).2
      (by decide) 0 rfl⟩

/-- Claim C3: in every frame whose update completes, the selection flag afterwards is the
negation of the old flag if the left button was pressed and the ray hits `bounds`, false if
it was pressed and the ray misses, and the old flag if it was not pressed.  So a click
that misses deselects, and two hitting clicks in consecutive frames give back the flag
from before the first. -/
theorem selection_follows_click {K : Type} [Field K] [DecidableEq K] (lib : Lib K)
    (st : State K) (f : FrameInput K) (calls : List (Call K)) (st' : State K)
    (h : frameUpdate lib st f = (calls, .ok st')) :
    st'.selected =
        (if f.isLeftButtonPressed then
          (if f.rayHitsBox st'.camera st'.bounds then !st.selected else false)
         else st.selected) ∧
    (f.isLeftButtonPressed = true → f.rayHitsBox st'.camera st'.bounds = false →
        st'.selected = false) ∧
    (∀ (g : FrameInput K) (calls2 : List (Call K)) (st2 : State K),
        frameUpdate lib st' g = (calls2, .ok st2) →
        f.isLeftButtonPressed = true → f.rayHitsBox st'.camera st'.bounds = true →
        g.isLeftButtonPressed = true → g.rayHitsBox st2.camera st2.bounds = true →
        st2.selected = st.selected) := by
  have step : ∀ (s : State K) (g : FrameInput K) (c : List (Call K)) (s' : State K),
      frameUpdate lib s g = (c, .ok s') →
      s'.selected = (if g.isLeftButtonPressed then
          (if g.rayHitsBox s'.camera s'.bounds then !s.selected else false)
         else s.selected) := by
    intro s g c s' hs
    obtain ⟨mid, hmid, rfl⟩ := (frameUpdate_ok_iff lib s g c s').1 hs
    have hv := handleDrop_sameView lib _ g c mid hmid
    have hsel : mid.selected = s.selected := hv.2.2.2.2.2.2.trans (beforeDrop_assets lib s g).2
    rw [handleClick_eq]
    simp only [hsel]
  have h1 := step st f calls st' h
  refine ⟨h1, ?_, ?_⟩
  · intro hp hm
    rw [h1]
    simp [hp, hm]
  · intro g calls2 st2 hg hp hh gp gh
    rw [step st' g calls2 st2 hg, h1]
    simp [hp, hh, gp, gh]

/-- Claim C3 at concrete frames: from the unselected entry state a hitting click selects,
a second hitting click deselects again, and a missing click deselects. -/
theorem selection_follows_click_witness :
    (handleClick (beforeDrop ratLib (entryState ratLib) hitClick) hitClick).selected = true ∧
    (handleClick (beforeDrop ratLib
      (handleClick (beforeDrop ratLib (entryState ratLib) hitClick) hitClick) hitClick)
      hitClick).selected = (entryState ratLib).selected ∧
    (handleClick (beforeDrop ratLib
      (handleClick (beforeDrop ratLib (entryState ratLib) hitClick) hitClick) missClick)
      missClick).selected = false := by
  have h1 := selection_follows_click ratLib (entryState ratLib) hitClick [] _
    (frameUpdate_of_no_drop ratLib (entryState ratLib) hitClick rfl)
  have h2 := selection_follows_click ratLib _ missClick [] _
    (frameUpdate_of_no_drop ratLib
      (handleClick (beforeDrop ratLib (entryState ratLib) hitClick) hitClick) missClick rfl)
  refine ⟨h1.1.trans rfl, ?_, h2.2.1 rfl rfl⟩
  exact h1.2.2 hitClick [] _ (frameUpdate_of_no_drop ratLib _ hitClick rfl) rfl rfl rfl rfl

/-- Claim C4: in every frame in which files are dropped and either their number is not 1
or the one file has none of the extensions .obj, .gltf, .glb, .vox, .iqm, .m3d, .png, the
update makes exactly two calls, `LoadDroppedFiles` and `UnloadDroppedFiles` of that list (so
no model or texture is loaded or unloaded), and leaves model, texture and bounds as they
were. -/
theorem unsupported_drop_changes_nothing {K : Type} [Field K] [DecidableEq K] (lib : Lib K)
    (st : State K) (f : FrameInput K) (hdrop : f.isFileDropped = true)
    (hfiles : f.droppedFiles.length ≠ 1 ∨
      ∃ path, f.droppedFiles = [path] ∧
        ∀ ext ∈ supportedExtensions, lib.IsFileExtension path ext = false) :
    ∃ st', frameUpdate lib st f =
        ([Call.LoadDroppedFiles f.droppedFiles, Call.UnloadDroppedFiles f.droppedFiles],
          .ok st') ∧
      st'.model = st.model ∧ st'.texture = st.texture ∧ st'.bounds = st.bounds := by
  have hd : handleDrop lib (beforeDrop lib st f) f =
      ([Call.LoadDroppedFiles f.droppedFiles, Call.UnloadDroppedFiles f.droppedFiles],
        .ok (beforeDrop lib st f)) := by
    unfold handleDrop
    rcases hfiles with hlen | ⟨path, hpath, hext⟩
    · rcases hl : f.droppedFiles with _ | ⟨p1, _ | ⟨p2, rest⟩⟩
      · simp [hdrop]
      · simp [hl] at hlen
      · simp [hdrop]
    · have hmodel : isModelFile lib path = false := by
        simp [isModelFile, hext, supportedExtensions]
      have hpng : lib.IsFileExtension path ".png" = false :=
        hext ".png" (by simp [supportedExtensions])
      simp [hdrop, hpath, replaceFromFile, hmodel, hpng]
  refine ⟨handleClick (beforeDrop lib st f) f,
    (frameUpdate_ok_iff lib st f _ _).2 ⟨_, hd, rfl⟩, ?_⟩
  have ha := (beforeDrop_assets lib st f).1
  rw [handleClick_eq]
  exact ha

/-- Claim C4 at a concrete frame: dropping `notes.txt` makes the two calls on the dropped
list only and keeps model, texture and bounds. -/
theorem unsupported_drop_changes_nothing_witness :
    (textDrop : FrameInput ℚ).isFileDropped = true ∧
    (∀ ext ∈ supportedExtensions, ratLib.IsFileExtension "notes.txt" ext = false) ∧
    ∃ st', frameUpdate ratLib (entryState ratLib) textDrop =
        ([Call.LoadDroppedFiles ["notes.txt"], Call.UnloadDroppedFiles ["notes.txt"]],
          .ok st') ∧
      st'.model = (entryState ratLib).model ∧ st'.texture = (entryState ratLib).texture ∧
      st'.bounds = (entryState ratLib).bounds :=
  ⟨rfl, by decide,
    unsupported_drop_changes_nothing ratLib (entryState ratLib) textDrop rfl
      (Or.inr ⟨"notes.txt", rfl, by decide⟩)⟩

/-- Claim C5: at every point where `main` draws a frame, the diffuse texture of material 0
of the current model is the current `texture`, and `bounds` is `GetMeshBoundingBox` of mesh 0
of the current model.  In a frame whose update completes, dropping one model file keeps
`texture`, puts it on the model that was loaded and takes the bounds of that model's mesh 0;
dropping one `.png` makes the loaded texture the current one and puts it on the model, whose
meshes, and the bounds, stay as they were. -/
theorem drawn_frames_are_consistent {K : Type} [Field K] [DecidableEq K] (lib : Lib K)
    (init : InitInput) (frames : List (FrameInput K)) :
    (∀ s ∈ (main lib init frames).drawn, Consistent lib s) ∧
    (∀ (st : State K) (f : FrameInput K) (path : String) (calls : List (Call K))
        (st' : State K),
      f.isFileDropped = true → f.droppedFiles = [path] → isModelFile lib path = true →
      frameUpdate lib st f = (calls, .ok st') →
      st'.texture = st.texture ∧
      st'.model.materials.head?.map (fun m => m.diffuseTexture) = some st.texture ∧
      st'.model.handle = f.loadModel.handle ∧
      st'.model.meshes = f.loadModel.meshes ∧
      st'.model.meshes.head?.map lib.GetMeshBoundingBox = some st'.bounds) ∧
    (∀ (st : State K) (f : FrameInput K) (path : String) (calls : List (Call K))
        (st' : State K),
      f.isFileDropped = true → f.droppedFiles = [path] → isModelFile lib path = false →
      lib.IsFileExtension path ".png" = true →
      frameUpdate lib st f = (calls, .ok st') →
      st'.texture = f.loadTexture ∧
      st'.model.materials.head?.map (fun m => m.diffuseTexture) = some f.loadTexture ∧
      st'.model.handle = st.model.handle ∧
      st'.model.meshes = st.model.meshes ∧
      st'.bounds = st.bounds) := by
  refine ⟨?_, ?_, ?_⟩
  · intro s hs
    rcases main_drawn lib init frames with h0 | ⟨model, bounds, hset, hb, hm⟩
    · simp [h0] at hs
    · rw [hm] at hs
      refine mainLoop_consistent lib frames _ ?_ s hs
      exact ⟨(setDiffuseTexture_ok _ _ _ hset).2.2.1, meshBounds_ok lib model bounds hb⟩
  · intro st f path calls st' hd hfiles hmodel h
    obtain ⟨mid, hmid, rfl⟩ := (frameUpdate_ok_iff lib st f calls st').1 h
    obtain ⟨⟨hm, ht, hb⟩, -⟩ := beforeDrop_assets lib st f
    rcases handleDrop_ok lib _ f calls mid hmid with ⟨hnd, -, -⟩ | ⟨-, hne, -, -⟩ |
      ⟨-, p, inner, hp, hr, -⟩
    · rw [hd] at hnd; cases hnd
    · exact absurd hfiles (hne path)
    · rw [hfiles] at hp
      simp only [List.cons.injEq, and_true] at hp
      subst hp
      have := replaceFromFile_model lib _ f path inner mid hmodel hr
      rw [handleClick_eq]
      rw [ht] at this
      exact this
  · intro st f path calls st' hd hfiles hmodel hpng h
    obtain ⟨mid, hmid, rfl⟩ := (frameUpdate_ok_iff lib st f calls st').1 h
    obtain ⟨⟨hm, ht, hb⟩, -⟩ := beforeDrop_assets lib st f
    rcases handleDrop_ok lib _ f calls mid hmid with ⟨hnd, -, -⟩ | ⟨-, hne, -, -⟩ |
      ⟨-, p, inner, hp, hr, -⟩
    · rw [hd] at hnd; cases hnd
    · exact absurd hfiles (hne path)
    · rw [hfiles] at hp
      simp only [List.cons.injEq, and_true] at hp
      subst hp
      have := replaceFromFile_png lib _ f path inner mid hmodel hpng hr
      rw [handleClick_eq]
      rw [hm, hb] at this
      exact this

/-- Claim C5 at a concrete run: a `.png` drop, then a model drop, then the window closes;
two frames are drawn and both are consistent.  From the entry state the model drop gives
the new model (handle 2, mesh 5) with the old texture 7 on it and the bounds of mesh 5, and
the `.png` drop gives texture 9 on the old model with the old bounds. -/
theorem drawn_frames_are_consistent_witness :
    (main ratLib goodLoad [pngDrop, modelDrop, closeFrame]).drawn.length = 2 ∧
    (∀ s ∈ (main ratLib goodLoad [pngDrop, modelDrop, closeFrame]).drawn,
      Consistent ratLib s) ∧
    (∀ st' : State ℚ,
      st' = handleClick
          { beforeDrop ratLib (entryState ratLib) modelDrop with
            model := ⟨2, [⟨5⟩], [⟨⟨7⟩⟩]⟩, bounds := ratLib.GetMeshBoundingBox ⟨5⟩ } modelDrop →
      st'.texture = (entryState ratLib).texture ∧
      st'.model.materials.head?.map (fun m => m.diffuseTexture) =
        some (entryState ratLib).texture ∧
      st'.model.handle = 2 ∧
      st'.model.meshes = [⟨5⟩] ∧
      st'.model.meshes.head?.map ratLib.GetMeshBoundingBox = some st'.bounds) ∧
    (∀ st' : State ℚ,
      st' = handleClick
          { beforeDrop ratLib (entryState ratLib) pngDrop with
            texture := ⟨9⟩, model := ⟨1, [⟨3⟩], [⟨⟨9⟩⟩]⟩ } pngDrop →
      st'.texture = ⟨9⟩ ∧
      st'.model.materials.head?.map (fun m => m.diffuseTexture) = some ⟨9⟩ ∧
      st'.model.handle = (entryState ratLib).model.handle ∧
      st'.model.meshes = (entryState ratLib).model.meshes ∧
      st'.bounds = (entryState ratLib).bounds) := by
  have h := drawn_frames_are_consistent ratLib goodLoad [pngDrop, modelDrop, closeFrame]
  refine ⟨rfl, h.1, ?_, ?_⟩
  · rintro st' rfl
    exact h.2.1 (entryState ratLib) modelDrop "castle.obj" _ _ rfl rfl (by decide) rfl
  · rintro st' rfl
    exact h.2.2 (entryState ratLib) pngDrop "skin.png" _ _ rfl rfl (by decide) (by decide) rfl

/-- Claim C6: in every frame with frame time `dt`, the camera position after the key
handling is `base + 15*dt*((w - s)*dir + (d - a)*right) + (0, 15*dt*(q - e), 0)`, with
`w, s, a, d, q, e` the 0/1 states of the keys, `base` the home position (0,10,10) if `R` was
pressed and the old position otherwise, `dir` the `camDirection` after the `R` handling and
`right` the normalised cross product of the old `camDirection` and `up`.  So with `R` not
pressed, `W` and `S` in the same state, `A` and `D` in the same state and `Q` and `E` in the
same state the position stays where it was, and `Q`, `E` have no influence on x and z. -/
theorem camera_position_after_keys {K : Type} [Field K] [DecidableEq K] (lib : Lib K)
    (st : State K) (f : FrameInput K) :
    (handleKeys lib st f).camDirection =
        (if f.isKeyPressed .KEY_R then
          Vector3Normalize lib (Vector3Subtract st.camera.target cameraHome)
         else st.camDirection) ∧
    (handleKeys lib st f).camDirectionRight =
        Vector3Normalize lib (Vector3CrossProduct st.camDirection st.camera.up) ∧
    (handleKeys lib st f).camera.position =
      Vector3Add
        (Vector3Add (if f.isKeyPressed .KEY_R then cameraHome else st.camera.position)
          (Vector3Scale
            (Vector3Add
              (Vector3Scale (handleKeys lib st f).camDirection
                (ind (f.isKeyDown .KEY_W) - ind (f.isKeyDown .KEY_S)))
              (Vector3Scale (handleKeys lib st f).camDirectionRight
                (ind (f.isKeyDown .KEY_D) - ind (f.isKeyDown .KEY_A))))
            (15 * f.frameTime)))
        ⟨0, 15 * f.frameTime * (ind (f.isKeyDown .KEY_Q) - ind (f.isKeyDown .KEY_E)), 0⟩ ∧
    (f.isKeyPressed .KEY_R = false → f.isKeyDown .KEY_W = f.isKeyDown .KEY_S →
      f.isKeyDown .KEY_A = f.isKeyDown .KEY_D → f.isKeyDown .KEY_Q = f.isKeyDown .KEY_E →
      (handleKeys lib st f).camera.position = st.camera.position) ∧
    (∀ q e : Bool,
      (handleKeys lib st (withKeysQE f q e)).camera.position.x =
        (handleKeys lib st f).camera.position.x ∧
      (handleKeys lib st (withKeysQE f q e)).camera.position.z =
        (handleKeys lib st f).camera.position.z) := by
  refine ⟨?_, ?_, handleKeys_position lib st f, ?_, ?_⟩
  · rw [handleKeys_eq]
  · rw [handleKeys_eq]
  · intro hR hWS hAD hQE
    rw [handleKeys_position, hWS, hAD, hQE]
    simp [hR, Vector3Add, Vector3Scale]
  · intro q e
    rw [handleKeys_position lib st f, handleKeys_position lib st (withKeysQE f q e)]
    rw [handleKeys_eq lib st f, handleKeys_eq lib st (withKeysQE f q e)]
    simp [Vector3Add, Vector3Scale, withKeysQE]

/-- Claim C6 at a concrete frame: with `W` and `S` both held for a sixtieth of a second the
camera stays where it was. -/
theorem camera_position_after_keys_witness :
    (handleKeys ratLib (entryState ratLib) pushPullFrame).camera.position =
      (entryState ratLib).camera.position :=
  (camera_position_after_keys ratLib (entryState ratLib) pushPullFrame).2.2.2.1
    rfl rfl rfl rfl

/-- Claim C8 fails on the drop path: after a good initial load, dropping one `.obj` file
for which `LoadModel` returns a model without meshes makes `main` index `model.meshes[0]` of
the `NULL` array (main.c 173); the run ends in that fault right after the load. -/
theorem dropped_model_without_meshes_faults :
    (main ratLib goodLoad [brokenModelDrop]).exit = .fault .nullMeshes ∧
    (main ratLib goodLoad [brokenModelDrop]).trace =
      initCalls goodLoad ++
        [ Call.DisableCursor, Call.SetTargetFPS 60, Call.WindowShouldClose false,
          Call.LoadDroppedFiles ["broken.obj"],
          Call.UnloadModel ⟨1, [⟨3⟩], [⟨⟨7⟩⟩]⟩,
          Call.LoadModel "broken.obj" ⟨2, [], [⟨⟨0⟩⟩]⟩ ] ∧
    (main ratLib goodLoad [brokenModelDrop]).drawn = [] :=
  ⟨rfl, rfl, rfl⟩

/-- Counterexample to claim C9 as stated, in real arithmetic: hold `S` for one frame of
1/15 s (the camera backs off by exactly one `camDirection`, so the target lands on the home
position), then press `R`.  `camDirection` is then the zero vector: its length is 0, not 1,
and the target coincides with the position. -/
theorem reset_onto_target_zeroes_camDirection :
    ∃ s1 s2 : State ℝ,
      (main (libOver Real.sqrt Real.sin Real.cos) goodLoad [backFrame, resetFrame]).drawn
        = [s1, s2] ∧
      s1.camera.target = cameraHome ∧
      s2.camDirection = ⟨0, 0, 0⟩ ∧
      Vector3Length (libOver Real.sqrt Real.sin Real.cos) s2.camDirection = 0 ∧
      Vector3Length (libOver Real.sqrt Real.sin Real.cos) s2.camDirection ≠ 1 ∧
      Vector3Distance (libOver Real.sqrt Real.sin Real.cos) s2.camera.position
        s2.camera.target ≠ 1 := by
  have hsin : (libOver Real.sqrt Real.sin Real.cos).sinf 0 = 0 := Real.sin_zero
  rcases main_drawn (libOver Real.sqrt Real.sin Real.cos) goodLoad
      [(backFrame : FrameInput ℝ), resetFrame] with h0 | ⟨model, bounds, -, -, hm⟩
  · exfalso
    have : (main (libOver Real.sqrt Real.sin Real.cos) goodLoad
        [(backFrame : FrameInput ℝ), resetFrame]).drawn ≠ [] := by
      simp [main, setDiffuseTexture, goodLoad, meshBounds, mainLoop, backFrame, idleFrame,
        frameUpdate, handleDrop]
    exact this h0
  · rw [hm]
    have hu1 := frameUpdate_of_no_drop (libOver Real.sqrt Real.sin Real.cos)
      (initialState (libOver Real.sqrt Real.sin Real.cos) model goodLoad.texture bounds)
      (backFrame : FrameInput ℝ) rfl
    rw [mainLoop_step _ _ _ _ rfl _ _ hu1]
    have hu2 := frameUpdate_of_no_drop (libOver Real.sqrt Real.sin Real.cos)
      (handleClick (beforeDrop (libOver Real.sqrt Real.sin Real.cos)
        (initialState (libOver Real.sqrt Real.sin Real.cos) model goodLoad.texture bounds)
        backFrame) backFrame)
      (resetFrame : FrameInput ℝ) rfl
    rw [mainLoop_step _ _ _ _ rfl _ _ hu2, mainLoop_nil]
    have h1 := (back_then_reset (libOver Real.sqrt Real.sin Real.cos) hsin
      (initialState (libOver Real.sqrt Real.sin Real.cos) model goodLoad.texture bounds)).1 rfl
    obtain ⟨h2, h3⟩ := (back_then_reset (libOver Real.sqrt Real.sin Real.cos) hsin _).2 h1
    refine ⟨_, _, rfl, h1, h2, ?_, ?_, ?_⟩
    · rw [h2]; simp [Vector3Length, libOver]
    · rw [h2]; simp [Vector3Length, libOver]
    · rw [h3]; simp [Vector3Distance, libOver]

/-- Claim C9, as amended: in exact arithmetic `camDirection` has length 1 when the loop is
entered and at every drawn frame of a run, and the camera target is then at distance 1 from
the camera position, provided no frame of the run presses `R` while the camera target left
by the frame before is the home position (0,10,10). -/
theorem camDirection_unit_unless_reset_onto_target {K : Type} [LinearOrderedField K]
    (lib : Lib K) (hexact : ExactMath lib) (init : InitInput) (frames : List (FrameInput K))
    (hclear : ∀ p ∈ List.zip (main lib init frames).drawn frames.tail,
      p.2.windowShouldClose = false → p.2.isKeyPressed .KEY_R = true →
      p.1.camera.target ≠ cameraHome) :
    (∀ (model : Model) (texture : Texture2D) (bounds : BoundingBox K),
      Vector3Length lib (initialState lib model texture bounds).camDirection = 1) ∧
    (∀ s ∈ (main lib init frames).drawn,
      Vector3Length lib s.camDirection = 1 ∧
      Vector3Distance lib s.camera.position s.camera.target = 1) := by
  refine ⟨fun model texture bounds => (initialState_length lib hexact model texture bounds).1,
    ?_⟩
  intro s hs
  rcases main_drawn lib init frames with h0 | ⟨model, bounds, -, -, hm⟩
  · simp [h0] at hs
  · rw [hm] at hs hclear
    obtain ⟨hlen, htarget⟩ := initialState_length lib hexact model init.texture bounds
    refine mainLoop_length lib hexact frames _ hlen ?_ s hs
    cases frames with
    | nil => simp
    | cons f fs =>
      intro p hp
      simp only [List.zip_cons_cons, List.mem_cons] at hp
      rcases hp with rfl | hp
      · exact fun _ _ => htarget
      · exact hclear p hp

/-- The amended claim C9 at a concrete run in real arithmetic: an idle frame, then a frame
that presses `R`.  The idle frame leaves the target at distance 1 from the home position,
so the `R` press is not onto the target. -/
theorem camDirection_unit_unless_reset_onto_target_witness :
    ExactMath (libOver Real.sqrt Real.sin Real.cos) ∧
    (main (libOver Real.sqrt Real.sin Real.cos) goodLoad
      [idleFrame, resetFrame]).drawn.length = 2 ∧
    (∀ s ∈ (main (libOver Real.sqrt Real.sin Real.cos) goodLoad [idleFrame, resetFrame]).drawn,
      Vector3Length (libOver Real.sqrt Real.sin Real.cos) s.camDirection = 1 ∧
      Vector3Distance (libOver Real.sqrt Real.sin Real.cos) s.camera.position
        s.camera.target = 1) := by
  have hexact : ExactMath (libOver Real.sqrt Real.sin Real.cos) :=
    ⟨fun x hx => Real.mul_self_sqrt hx, fun x => Real.sqrt_nonneg x,
      fun x => by
        have := Real.sin_sq_add_cos_sq x
        simp only [libOver]
        nlinarith [this]⟩
  refine ⟨hexact, rfl, (camDirection_unit_unless_reset_onto_target
    (libOver Real.sqrt Real.sin Real.cos) hexact goodLoad [idleFrame, resetFrame] ?_).2⟩
  intro p hp _ _
  rcases main_drawn (libOver Real.sqrt Real.sin Real.cos) goodLoad
      [(idleFrame : FrameInput ℝ), resetFrame] with h0 | ⟨model, bounds, -, -, hm⟩
  · rw [h0] at hp
    simp at hp
  · have hu1 := frameUpdate_of_no_drop (libOver Real.sqrt Real.sin Real.cos)
      (initialState (libOver Real.sqrt Real.sin Real.cos) model goodLoad.texture bounds)
      (idleFrame : FrameInput ℝ) rfl
    rw [hm, mainLoop_step _ _ _ _ rfl _ _ hu1] at hp
    simp only [List.tail_cons, List.zip_cons_cons, List.zip_nil_right, List.mem_singleton] at hp
    subst hp
    obtain ⟨hlen, -⟩ := initialState_length (libOver Real.sqrt Real.sin Real.cos) hexact model
      goodLoad.texture bounds
    have hdist := (frameUpdate_length (libOver Real.sqrt Real.sin Real.cos) hexact _ _ _ _ hu1
      hlen (fun h => by simp [idleFrame] at h)).2
    have hpos := idle_keeps_position (libOver Real.sqrt Real.sin Real.cos)
      (initialState (libOver Real.sqrt Real.sin Real.cos) model goodLoad.texture bounds)
    intro htarget
    simp only at htarget
    rw [htarget, hpos] at hdist
    simp [Vector3Distance, initialState, initialCamera, libOver] at hdist

/-- Claim C10, as amended: for every scale `s`, `DrawAxes s` returns 0 and emits, between
one `rlBegin(RL_LINES)` and one `rlEnd`, exactly 18 vertices that form 9 segments, three per
axis in the order X (red), Y (green), Z (blue): the shaft from the origin to the tip at `s`,
and two strokes from the tip to the arrowhead points, which lie at `fl (s - fl (s/10))`
along the axis and at `fl (s/10)` and `-fl (s/10)` off it (along z for X and Y, along x for
Z), where `fl` is the rounding of the `float` quotient `scale / 10` and of the `float`
difference `s - punta`; the two arrowhead points of an axis mirror each other across it.  In
exact arithmetic (no rounding) the arrowhead points are at `s - s/10` and `+s/10`,
`-s/10`. -/
theorem drawAxes_emits_three_arrows {K : Type} [Field K] (lib : Lib K) (s : K) :
    (DrawAxes lib s).1 = 0 ∧
    (DrawAxes lib s).2.head? = some (Call.rlBegin .RL_LINES) ∧
    (DrawAxes lib s).2.getLast? = some Call.rlEnd ∧
    (DrawAxes lib s).2.countP Call.isBegin = 1 ∧
    (DrawAxes lib s).2.countP Call.isEnd = 1 ∧
    (DrawAxes lib s).2.countP Call.isVertex = 18 ∧
    linesOf (0, 0, 0) none (DrawAxes lib s).2 =
      [ ⟨1, 0, 0, ⟨0, 0, 0⟩, ⟨s, 0, 0⟩⟩,
        ⟨1, 0, 0, ⟨s, 0, 0⟩, ⟨lib.fl (s - lib.fl (s / 10)), 0, lib.fl (s / 10)⟩⟩,
        ⟨1, 0, 0, ⟨s, 0, 0⟩, ⟨lib.fl (s - lib.fl (s / 10)), 0, -(lib.fl (s / 10))⟩⟩,
        ⟨0, 1, 0, ⟨0, 0, 0⟩, ⟨0, s, 0⟩⟩,
        ⟨0, 1, 0, ⟨0, s, 0⟩, ⟨0, lib.fl (s - lib.fl (s / 10)), lib.fl (s / 10)⟩⟩,
        ⟨0, 1, 0, ⟨0, s, 0⟩, ⟨0, lib.fl (s - lib.fl (s / 10)), -(lib.fl (s / 10))⟩⟩,
        ⟨0, 0, 1, ⟨0, 0, 0⟩, ⟨0, 0, s⟩⟩,
        ⟨0, 0, 1, ⟨0, 0, s⟩, ⟨lib.fl (s / 10), 0, lib.fl (s - lib.fl (s / 10))⟩⟩,
        ⟨0, 0, 1, ⟨0, 0, s⟩, ⟨-(lib.fl (s / 10)), 0, lib.fl (s - lib.fl (s / 10))⟩⟩ ] ∧
    mirrorAcrossX (⟨lib.fl (s - lib.fl (s / 10)), 0, lib.fl (s / 10)⟩ : Vector3 K) =
      ⟨lib.fl (s - lib.fl (s / 10)), 0, -(lib.fl (s / 10))⟩ ∧
    mirrorAcrossY (⟨0, lib.fl (s - lib.fl (s / 10)), lib.fl (s / 10)⟩ : Vector3 K) =
      ⟨0, lib.fl (s - lib.fl (s / 10)), -(lib.fl (s / 10))⟩ ∧
    mirrorAcrossZ (⟨lib.fl (s / 10), 0, lib.fl (s - lib.fl (s / 10))⟩ : Vector3 K) =
      ⟨-(lib.fl (s / 10)), 0, lib.fl (s - lib.fl (s / 10))⟩ ∧
    ((∀ x : K, lib.fl x = x) →
      linesOf (0, 0, 0) none (DrawAxes lib s).2 =
        [ ⟨1, 0, 0, ⟨0, 0, 0⟩, ⟨s, 0, 0⟩⟩,
          ⟨1, 0, 0, ⟨s, 0, 0⟩, ⟨s - s / 10, 0, s / 10⟩⟩,
          ⟨1, 0, 0, ⟨s, 0, 0⟩, ⟨s - s / 10, 0, -(s / 10)⟩⟩,
          ⟨0, 1, 0, ⟨0, 0, 0⟩, ⟨0, s, 0⟩⟩,
          ⟨0, 1, 0, ⟨0, s, 0⟩, ⟨0, s - s / 10, s / 10⟩⟩,
          ⟨0, 1, 0, ⟨0, s, 0⟩, ⟨0, s - s / 10, -(s / 10)⟩⟩,
          ⟨0, 0, 1, ⟨0, 0, 0⟩, ⟨0, 0, s⟩⟩,
          ⟨0, 0, 1, ⟨0, 0, s⟩, ⟨s / 10, 0, s - s / 10⟩⟩,
          ⟨0, 0, 1, ⟨0, 0, s⟩, ⟨-(s / 10), 0, s - s / 10⟩⟩ ]) := by
  refine ⟨rfl, rfl, rfl, rfl, rfl, rfl, rfl, ?_, ?_, ?_, ?_⟩
  · simp [mirrorAcrossX]
  · simp [mirrorAcrossY]
  · simp [mirrorAcrossZ]
  · intro hid
    rw [DrawAxes_lines, hid (s / 10), hid (s - s / 10)]

/-- Counterexample to claim C10 as stated, in binary32 arithmetic.  At scale 1 the first
arrowhead stroke of the X axis ends at `(15099494 / 2^24, 0, 13421773 / 2^27)`
(0.899999976..., 0, 0.100000001...), not at `(1 - 1/10, 0, 1/10)`; and at scale `2^-149`,
the least positive `float`, `scale / 10` rounds to 0 and both arrowhead strokes of the X
axis end on the tip itself, not off the axis. -/
theorem float_rounding_moves_arrowheads :
    ((linesOf (0, 0, 0) none (DrawAxes float32Lib 1).2)[1]? =
        some ⟨1, 0, 0, ⟨1, 0, 0⟩, ⟨15099494 / 16777216, 0, 13421773 / 134217728⟩⟩ ∧
      (15099494 / 16777216 : ℚ) ≠ 1 - 1 / 10 ∧ (13421773 / 134217728 : ℚ) ≠ 1 / 10) ∧
    ((linesOf (0, 0, 0) none (DrawAxes float32Lib (2 ^ (-149 : ℤ))).2)[1]? =
        some ⟨1, 0, 0, ⟨2 ^ (-149 : ℤ), 0, 0⟩, ⟨2 ^ (-149 : ℤ), 0, 0⟩⟩ ∧
      (linesOf (0, 0, 0) none (DrawAxes float32Lib (2 ^ (-149 : ℤ))).2)[2]? =
        some ⟨1, 0, 0, ⟨2 ^ (-149 : ℤ), 0, 0⟩, ⟨2 ^ (-149 : ℤ), 0, 0⟩⟩ ∧
      ((2 : ℚ) ^ (-149 : ℤ) / 10 ≠ 0)) := by
  refine ⟨⟨?_, by norm_num, by norm_num⟩, ?_, ?_, by norm_num⟩
  · rw [DrawAxes_lines, float32Lib_fl, float32Lib_fl, roundFloat32_tenth,
      roundFloat32_nine_tenths]
    rfl
  · rw [DrawAxes_lines, float32Lib_fl, float32Lib_fl, roundFloat32_tenth_of_least, sub_zero,
      roundFloat32_two_zpow _ (by norm_num)]
    rfl
  · rw [DrawAxes_lines, float32Lib_fl, float32Lib_fl, roundFloat32_tenth_of_least, sub_zero,
      roundFloat32_two_zpow _ (by norm_num), neg_zero]
    rfl

/-- The amended claim C10 at scale 20, the scale `main` draws with, in exact rational
arithmetic: the arrowhead points of the X axis are `(18, 0, 2)` and `(18, 0, -2)`. -/
theorem drawAxes_emits_three_arrows_witness :
    (∀ x : ℚ, ratLib.fl x = x) ∧
    (linesOf (0, 0, 0) none (DrawAxes ratLib 20).2).length = 9 ∧
    (linesOf (0, 0, 0) none (DrawAxes ratLib 20).2)[1]? =
      some ⟨1, 0, 0, ⟨20, 0, 0⟩, ⟨18, 0, 2⟩⟩ ∧
    (linesOf (0, 0, 0) none (DrawAxes ratLib 20).2)[2]? =
      some ⟨1, 0, 0, ⟨20, 0, 0⟩, ⟨18, 0, -2⟩⟩ := by
  have h := (drawAxes_emits_three_arrows ratLib (20 : ℚ)).2.2.2.2.2.2.2.2.2.2 (fun _ => rfl)
  refine ⟨fun _ => rfl, ?_, ?_, ?_⟩
  · rw [h]; rfl
  · rw [h]; norm_num
  · rw [h]; norm_num

end RaylibModelViewer
